import Mathlib

/-!
Live polling coordinator (backend/server.js)

A shallow embedding of the socket server: the five module-level variables
(`activePoll`, `users`, `pollHistory`, `pollTimer`, `chatMessages`), the seven
socket event handlers, the interval callback and `endPoll`.

Conventions of the embedding:

* a handler is a function from the store to an `Outcome`: the store when the
  handler stops, the messages it emitted in order, and whether it stopped by
  raising an uncaught `TypeError` (`fault`);
* `Date.now()` is an input of the handler (`now`); the chat handler reads the
  clock twice and takes a second input (`later`);
* a JavaScript number that holds an integer is that integer, and arithmetic on
  it rounds to the nearest number of the format (`nearestNumber`);
* a JavaScript `Set` is the list of its members in insertion order;
* `setInterval` hands out fresh handles; `intervals` is the set of intervals
  that are scheduled and not cleared, so a tick of handle `h` runs the callback
  only while `h` is in `intervals`.
-/

namespace LivePoll

/-- The transport id of a connection (`socket.id`). -/
abbrev SocketId := String

/-- One element of `users`: `{ socketId, name, role }`. -/
structure User where
  socketId : SocketId
  name : String
  role : String
deriving DecidableEq, Repr

/-- One element of `results`: `{ text, votes }`. -/
structure ResultRow where
  text : String
  votes : Nat
deriving DecidableEq, Repr

/-- The object stored in `activePoll` (lines 65-73). `timeLimit` and
`timeRemaining` are numbers holding an integer. -/
structure Poll where
  question : String
  options : List String
  results : List ResultRow
  timeLimit : Int
  timeRemaining : Int
  votes : List SocketId
  startTime : Nat
deriving DecidableEq, Repr

/-- One element of `pollHistory` (lines 208-212). -/
structure HistoryEntry where
  question : String
  results : List ResultRow
  endedAt : Nat
deriving DecidableEq, Repr

/-- One element of `chatMessages` (lines 160-168). -/
structure ChatMessage where
  id : Nat
  senderId : SocketId
  senderName : String
  senderRole : String
  recipientId : Option SocketId
  message : String
  timestamp : Nat
deriving DecidableEq, Repr

/-- The module-level variables of server.js, together with the intervals the
event loop holds (`intervals`) and the next fresh interval handle. -/
structure State where
  activePoll : Option Poll
  users : List User
  pollHistory : List HistoryEntry
  pollTimer : Option Nat
  chatMessages : List ChatMessage
  intervals : List Nat
  nextInterval : Nat
deriving DecidableEq, Repr

/-- The store when the process starts (lines 19-23). -/
def State.init : State :=
  { activePoll := none, users := [], pollHistory := [], pollTimer := none,
    chatMessages := [], intervals := [], nextInterval := 0 }

/-- The outbound events, by name, with their payload. -/
inductive Msg where
  | updateUsers (users : List User)
  | newPoll (question : String) (options : List String) (timeLimit : Int)
  | timerUpdate (timeRemaining : Int)
  | updateResults (results : List ResultRow)
  | pollEnded (results : List ResultRow)
  | historyUpdate (history : List HistoryEntry)
  | youWereRemoved
  | chatMessage (m : ChatMessage)
  | chatHistory (ms : List ChatMessage)
deriving DecidableEq, Repr

/-- Who receives an emitted message: `io.emit` reaches every connection,
`socket.emit` and `io.to(id).emit` reach the connection with that id. -/
inductive Audience where
  | all
  | only (sid : SocketId)
deriving DecidableEq, Repr

/-- An emitted message with its audience. -/
abbrev Emission := Audience × Msg

/-- What a handler leaves behind: the store, the emissions in order, and
whether it stopped by raising an uncaught exception. -/
structure Outcome where
  state : State
  emitted : List Emission
  fault : Bool
deriving DecidableEq, Repr

/-- A handler that ran to its end. -/
def Outcome.ok (s : State) (out : List Emission) : Outcome :=
  { state := s, emitted := out, fault := false }

/-- A handler stopped by an uncaught exception. -/
def Outcome.raised (s : State) (out : List Emission) : Outcome :=
  { state := s, emitted := out, fault := true }

/-! ## Payloads -/

/-- Payload of `user:join`, destructured as `{ name, role }`. -/
structure JoinPayload where
  name : String
  role : String
deriving DecidableEq, Repr

/-- Payload of `teacher:create-poll`, destructured as
`{ question, options, timer }`; `options = none` stands for a value that is
missing or has no `map` method (not an array). -/
structure CreatePollPayload where
  question : String
  options : Option (List String)
  timer : Int
deriving DecidableEq, Repr

/-- Payload of `student:submit-vote`, used as a property key of the `results`
array: an integer, or the string "length" (a key for which `results[key]`
is a number, not an element). -/
inductive VotePayload where
  | int (i : Int)
  | lengthKey
deriving DecidableEq, Repr

/-- Payload of `chat:send-message`, destructured as `{ message, recipientId }`. -/
structure ChatPayload where
  message : String
  recipientId : Option SocketId
deriving DecidableEq, Repr

/-! ## Helpers of the handlers -/

/-- The lookup `users.find(u => u.socketId === id)`. -/
def findUser (users : List User) (id : SocketId) : Option User :=
  users.find? (fun u => decide (u.socketId = id))

/-- The value of `user?.role` for the user found by `findUser`. -/
def registeredRole (users : List User) (id : SocketId) : Option String :=
  (findUser users id).map User.role

/-- The count `users.filter(u => u.role === 'student').length`. -/
def studentCount (users : List User) : Nat :=
  (users.filter (fun u => decide (u.role = "student"))).length

/-- The copy `results.map(result => ({ text: result.text, votes: result.votes }))`. -/
def copyResults (results : List ResultRow) : List ResultRow :=
  results.map (fun result => { text := result.text, votes := result.votes })

/-- The fresh tally `options.map(text => ({ text, votes: 0 }))`. -/
def freshResults (options : List String) : List ResultRow :=
  options.map (fun text => { text := text, votes := 0 })

/-- The call `clearInterval(pollTimer)`: nothing for `null`. -/
def clearInterval (pollTimer : Option Nat) (intervals : List Nat) : List Nat :=
  match pollTimer with
  | none => intervals
  | some h => intervals.filter (fun k => decide (k ≠ h))

/-- The call `votes.has(id)` of the voter set. -/
def setHas (votes : List SocketId) (id : SocketId) : Bool :=
  decide (id ∈ votes)

/-- The call `votes.add(id)` of the voter set. -/
def setAdd (votes : List SocketId) (id : SocketId) : List SocketId :=
  if id ∈ votes then votes else votes ++ [id]

/-- The statement `results[optionIndex].votes++` (line 118): `none` when
`results[optionIndex]` is `undefined`, so that reading `.votes` raises a
`TypeError`; for the key "length" the base is a number, the update stores
nothing and raises nothing (the module is not in strict mode). -/
def incrementVotes (results : List ResultRow) (optionIndex : VotePayload) :
    Option (List ResultRow) :=
  match optionIndex with
  | VotePayload.lengthKey => some results
  | VotePayload.int i =>
    if 0 ≤ i then
      match results[i.toNat]? with
      | none => none
      | some r => some (results.set i.toNat { r with votes := r.votes + 1 })
    else none

/-- The spacing of the JavaScript numbers around a natural number `n` of at
least 2^53: the least `u` among the given one and its doublings for which
`n / u < 2^53`. The fuel bounds the doublings by the exponent range of the
number format. -/
def spacing : Nat → Nat → Nat → Nat
  | 0, u, _ => u
  | fuel + 1, u, n => if n / u < 9007199254740992 then u else spacing fuel (2 * u) n

/-- The JavaScript number nearest to an integer, ties to the even significand
(the rounding of every arithmetic result): the integer itself up to 2^53 in
magnitude, beyond that a multiple of the spacing. -/
def nearestNumber (x : Int) : Int :=
  if x.natAbs ≤ 9007199254740992 then x
  else
    let ulp := spacing 1024 1 x.natAbs
    let q := x.natAbs / ulp
    let r := x.natAbs % ulp
    let q1 := if 2 * r > ulp then q + 1 else if 2 * r = ulp then q + q % 2 else q
    x.sign * ((q1 * ulp : Nat) : Int)

/-- The value stored by `timeRemaining--` (line 93): the number nearest to the
value less one. -/
def decrement (timeRemaining : Int) : Int :=
  nearestNumber (timeRemaining - 1)

/-- Truthiness of `recipientId` (line 175): set and not the empty string. -/
def recipientSet (recipientId : Option SocketId) : Option SocketId :=
  match recipientId with
  | none => none
  | some r => if r = "" then none else some r

/-! ## endPoll and the handlers -/

/-- The function `endPoll` (lines 196-228). -/
def endPoll (now : Nat) (s : State) : State × List Emission :=
  match s.activePoll with
  | none => (s, [])
  | some p =>
    let intervals := clearInterval s.pollTimer s.intervals
    let finalResults := copyResults p.results
    let unshifted : List HistoryEntry :=
      { question := p.question, results := finalResults, endedAt := now } :: s.pollHistory
    let history := if unshifted.length > 50 then unshifted.dropLast else unshifted
    ({ s with activePoll := none, pollTimer := none, pollHistory := history,
              intervals := intervals },
     [(Audience.all, Msg.pollEnded finalResults),
      (Audience.all, Msg.historyUpdate history)])

/-- Handler of `user:join` (lines 29-52). -/
def userJoin (sid : SocketId) (payload : Option JoinPayload) (s : State) : Outcome :=
  match payload with
  | none => Outcome.raised s []
  | some pl =>
    let users := s.users ++ [{ socketId := sid, name := pl.name, role := pl.role }]
    let catchUp : List Emission :=
      match s.activePoll with
      | none => []
      | some p =>
        [(Audience.only sid, Msg.newPoll p.question p.options p.timeLimit),
         (Audience.only sid, Msg.timerUpdate p.timeRemaining),
         (Audience.only sid, Msg.updateResults p.results)]
    let history : List Emission :=
      if pl.role = "teacher" then [(Audience.only sid, Msg.historyUpdate s.pollHistory)]
      else []
    Outcome.ok { s with users := users }
      ((Audience.all, Msg.updateUsers users) :: (catchUp ++ history))

/-- Handler of `teacher:create-poll` (lines 55-99). -/
def createPoll (now : Nat) (sid : SocketId) (payload : Option CreatePollPayload)
    (s : State) : Outcome :=
  match payload with
  | none => Outcome.raised s []
  | some pl =>
    if registeredRole s.users sid ≠ some "teacher" then Outcome.ok s []
    else
      match pl.options with
      | none => Outcome.raised s []
      | some options =>
        let p : Poll :=
          { question := pl.question, options := options, results := freshResults options,
            timeLimit := pl.timer, timeRemaining := pl.timer, votes := [], startTime := now }
        let h := s.nextInterval
        Outcome.ok
          { s with activePoll := some p, pollTimer := some h,
                   intervals := clearInterval s.pollTimer s.intervals ++ [h],
                   nextInterval := h + 1 }
          [(Audience.all, Msg.newPoll p.question p.options p.timeLimit)]

/-- The interval callback (lines 91-98), for the interval with handle `h`. -/
def tick (now : Nat) (h : Nat) (s : State) : Outcome :=
  if h ∈ s.intervals then
    match s.activePoll with
    | none => Outcome.raised s []
    | some p =>
      if p.timeRemaining > 0 then
        let p1 := { p with timeRemaining := decrement p.timeRemaining }
        Outcome.ok { s with activePoll := some p1 }
          [(Audience.all, Msg.timerUpdate p1.timeRemaining)]
      else
        let r := endPoll now s
        Outcome.ok r.1 r.2
  else Outcome.ok s []

/-- Handler of `student:submit-vote` (lines 102-140). -/
def submitVote (now : Nat) (sid : SocketId) (optionIndex : VotePayload) (s : State) :
    Outcome :=
  match s.activePoll with
  | none => Outcome.ok s []
  | some p =>
    if setHas p.votes sid then Outcome.ok s []
    else
      let p1 := { p with votes := setAdd p.votes sid }
      match incrementVotes p1.results optionIndex with
      | none => Outcome.raised { s with activePoll := some p1 } []
      | some results =>
        let p2 := { p1 with results := results }
        let s2 := { s with activePoll := some p2 }
        let currentResults := copyResults p2.results
        let out : List Emission := [(Audience.all, Msg.updateResults currentResults)]
        if p2.votes.length ≥ studentCount s2.users then
          let r := endPoll now s2
          Outcome.ok r.1 (out ++ r.2)
        else Outcome.ok s2 out

/-- Handler of `teacher:remove-student` (lines 143-153). -/
def removeStudent (sid : SocketId) (studentSocketId : SocketId) (s : State) : Outcome :=
  if registeredRole s.users sid ≠ some "teacher" then Outcome.ok s []
  else
    if registeredRole s.users studentSocketId = some "student" then
      let users := s.users.filter (fun u => decide (u.socketId ≠ studentSocketId))
      Outcome.ok { s with users := users }
        [(Audience.all, Msg.updateUsers users),
         (Audience.only studentSocketId, Msg.youWereRemoved)]
    else Outcome.ok s []

/-- Handler of `chat:send-message` (lines 156-181). The clock is read twice, for
`id` (line 161, reading `now`) and for `timestamp` (line 167, reading `later`). -/
def chatSendMessage (now later : Nat) (sid : SocketId) (payload : Option ChatPayload)
    (s : State) : Outcome :=
  match payload with
  | none => Outcome.raised s []
  | some pl =>
    match findUser s.users sid with
    | none => Outcome.ok s []
    | some sender =>
      let chatMessage : ChatMessage :=
        { id := now, senderId := sid, senderName := sender.name, senderRole := sender.role,
          recipientId := pl.recipientId, message := pl.message, timestamp := later }
      let pushed := s.chatMessages ++ [chatMessage]
      let kept := if pushed.length > 100 then pushed.tail else pushed
      let out : List Emission :=
        match recipientSet pl.recipientId with
        | some r =>
          [(Audience.only r, Msg.chatMessage chatMessage),
           (Audience.only sid, Msg.chatMessage chatMessage)]
        | none => [(Audience.all, Msg.chatMessage chatMessage)]
      Outcome.ok { s with chatMessages := kept } out

/-- Handler of `chat:request-history` (lines 184-186). -/
def chatRequestHistory (sid : SocketId) (s : State) : Outcome :=
  Outcome.ok s [(Audience.only sid, Msg.chatHistory s.chatMessages)]

/-- Handler of `disconnect` (lines 189-192). -/
def disconnect (sid : SocketId) (s : State) : Outcome :=
  let users := s.users.filter (fun user => decide (user.socketId ≠ sid))
  Outcome.ok { s with users := users } [(Audience.all, Msg.updateUsers users)]

/-! ## Event loop -/

/-- What the event loop can run next: an inbound event of a connection, or a
tick of an interval. A `chat:send-message` event carries the second reading of
the clock that its handler takes; the first is the clock reading of the turn. -/
inductive Event where
  | join (sid : SocketId) (payload : Option JoinPayload)
  | createPoll (sid : SocketId) (payload : Option CreatePollPayload)
  | submitVote (sid : SocketId) (optionIndex : VotePayload)
  | removeStudent (sid : SocketId) (studentSocketId : SocketId)
  | chatSendMessage (sid : SocketId) (payload : Option ChatPayload) (later : Nat)
  | chatRequestHistory (sid : SocketId)
  | disconnect (sid : SocketId)
  | tick (h : Nat)
deriving DecidableEq, Repr

/-- One turn of the event loop at clock reading `now`. -/
def step (now : Nat) (ev : Event) (s : State) : Outcome :=
  match ev with
  | Event.join sid payload => userJoin sid payload s
  | Event.createPoll sid payload => createPoll now sid payload s
  | Event.submitVote sid optionIndex => submitVote now sid optionIndex s
  | Event.removeStudent sid studentSocketId => removeStudent sid studentSocketId s
  | Event.chatSendMessage sid payload later => chatSendMessage now later sid payload s
  | Event.chatRequestHistory sid => chatRequestHistory sid s
  | Event.disconnect sid => disconnect sid s
  | Event.tick h => tick now h s

/-- The store after a sequence of turns, each with its clock reading. A turn
whose handler raised leaves the store as it was at the raise, and the run goes
on from there: server.js installs no handler for uncaught exceptions, so Node
would end the process at that point, and a run that stops there is a prefix of
a run here. What holds of every store reached here holds with or without that
stop. -/
def run (s : State) : List (Nat × Event) → State
  | [] => s
  | (now, ev) :: rest => run (step now ev s).state rest

/-- The stores the process can be in: those reached from the initial store by
some sequence of turns. -/
def Reachable (s : State) : Prop :=
  ∃ evs : List (Nat × Event), run State.init evs = s

/-! ## Predicates used in the statements -/

/-- The tally of the active poll lists the option texts in order. -/
def Aligned (s : State) : Prop :=
  ∀ p : Poll, s.activePoll = some p → p.results.map ResultRow.text = p.options

/-- The sum of `results[i].votes` over all options. -/
def totalVotes (results : List ResultRow) : Nat :=
  (results.map ResultRow.votes).sum

/-- The tally of the active poll sums to the size of its voter set. -/
def VotesMatch (s : State) : Prop :=
  ∀ p : Poll, s.activePoll = some p → totalVotes p.results = p.votes.length

/-- The turn is not a vote whose payload is the key "length". -/
def IndexIsNumber (ev : Event) : Prop :=
  ∀ sid : SocketId, ev ≠ Event.submitVote sid VotePayload.lengthKey

/-- The timer is set exactly when a poll is active, and the intervals that are
scheduled are the one held in `pollTimer`, if any. -/
def TimerMatchesPoll (s : State) : Prop :=
  (s.pollTimer.isSome = s.activePoll.isSome) ∧ s.intervals = s.pollTimer.toList

/-! ## The observable trace: polls closed and chat messages accepted -/

/-- The history entries of the polls a turn closed, read off its emissions: one
per poll-ended broadcast, with the question of the poll that was active when
the turn began, the broadcast results and the clock reading of the turn. -/
def closedBy (now : Nat) (s : State) (out : List Emission) : List HistoryEntry :=
  out.filterMap (fun e =>
    match e.2, s.activePoll with
    | Msg.pollEnded results, some p =>
      some { question := p.question, results := results, endedAt := now }
    | _, _ => none)

/-- The polls closed along a sequence of turns, in the order of closing. -/
def closedLog (s : State) : List (Nat × Event) → List HistoryEntry
  | [] => []
  | (now, ev) :: rest =>
    closedBy now s (step now ev s).emitted ++ closedLog (step now ev s).state rest

/-- The chat message a turn accepted, read off its emissions: the first chat
message it delivered, if any. -/
def chatAccepted (out : List Emission) : Option ChatMessage :=
  (out.filterMap (fun e =>
    match e.2 with
    | Msg.chatMessage m => some m
    | _ => none)).head?

/-- The chat messages accepted along a sequence of turns, in the order of
acceptance. -/
def chatLog (s : State) : List (Nat × Event) → List ChatMessage
  | [] => []
  | (now, ev) :: rest =>
    (chatAccepted (step now ev s).emitted).toList ++ chatLog (step now ev s).state rest

/-! ## What the rules of closing and of chat require of a turn -/

/-- The history entry a turn is due to archive, read off the store and the event
by the rules of closing, not off what the handlers emit. A close is due on a
tick of a scheduled interval when the active poll has no time remaining, and on
a vote of a session that has not voted, with an index the tally takes, that
brings the voter set to the number of student-role users. The entry has the
question of the active poll, its tally (with that vote) and the clock reading. -/
def dueClose (now : Nat) (ev : Event) (s : State) : Option HistoryEntry :=
  match s.activePoll with
  | none => none
  | some p =>
    match ev with
    | Event.tick h =>
      if h ∈ s.intervals ∧ ¬ p.timeRemaining > 0 then
        some { question := p.question, results := p.results, endedAt := now }
      else none
    | Event.submitVote sid optionIndex =>
      if sid ∈ p.votes then none
      else
        match incrementVotes p.results optionIndex with
        | none => none
        | some results =>
          if (p.votes ++ [sid]).length ≥ studentCount s.users then
            some { question := p.question, results := results, endedAt := now }
          else none
    | _ => none

/-- The entries due along a sequence of turns, in the order of the turns. -/
def dueCloses (s : State) : List (Nat × Event) → List HistoryEntry
  | [] => []
  | (now, ev) :: rest => (dueClose now ev s).toList ++ dueCloses (step now ev s).state rest

/-- The chat message a turn is due to store, read off the store and the event: a
`chat:send-message` with a payload object, of a session found in the registry,
is accepted, and its message carries the socket id, the name and role found,
the recipient and body of the payload and the two clock readings. -/
def dueMessage (now : Nat) (ev : Event) (s : State) : Option ChatMessage :=
  match ev with
  | Event.chatSendMessage sid (some pl) later =>
    (findUser s.users sid).map (fun sender =>
      { id := now, senderId := sid, senderName := sender.name, senderRole := sender.role,
        recipientId := pl.recipientId, message := pl.message, timestamp := later })
  | _ => none

/-- The messages due along a sequence of turns, in the order of the turns. -/
def dueMessages (s : State) : List (Nat × Event) → List ChatMessage
  | [] => []
  | (now, ev) :: rest => (dueMessage now ev s).toList ++ dueMessages (step now ev s).state rest

/-- A teacher and a student join; then, at each clock reading 0 to 50, the
teacher opens a poll and the vote of the only student closes it. -/
def demoFiftyOnePolls : List (Nat × Event) :=
  (0, Event.join "t" (some { name := "Tea", role := "teacher" })) ::
  (0, Event.join "s1" (some { name := "Ann", role := "student" })) ::
    ((List.range 51).flatMap (fun n =>
      [(n, Event.createPoll "t"
          (some { question := "Q", options := some ["A", "B"], timer := 60 })),
       (n, Event.submitVote "s1" (VotePayload.int 0))]))

/-- A student joins and sends a chat message at each clock reading 0 to 100, the
clock advancing by one between the two reads of the handler. -/
def demoHundredOneMessages : List (Nat × Event) :=
  (0, Event.join "s1" (some { name := "Ann", role := "student" })) ::
    (List.range 101).map (fun n =>
      (n, Event.chatSendMessage "s1" (some { message := "hi", recipientId := none }) (n + 1)))

/-! ## Requests to create a poll -/

/-- A `teacher:create-poll` event whose payload is an object with a list of
options, with the clock reading of its turn. -/
structure PollRequest where
  now : Nat
  sid : SocketId
  question : String
  options : List String
  timer : Int
deriving DecidableEq, Repr

/-- The turn of the event loop that handles a request. -/
def PollRequest.turn (r : PollRequest) : Nat × Event :=
  (r.now, Event.createPoll r.sid
    (some { question := r.question, options := some r.options, timer := r.timer }))

/-- The poll a request asks for, in the words of the specification: that
question and those options, time limit and time remaining equal to the timer, a
zero count for every option and an empty voter set. -/
def PollRequest.requested (r : PollRequest) : Poll :=
  { question := r.question, options := r.options,
    results := r.options.map (fun text => { text := text, votes := 0 }),
    timeLimit := r.timer, timeRemaining := r.timer, votes := [], startTime := r.now }

/-- Whether the sender of a request is found in the registry with role teacher. -/
def PollRequest.authorized (users : List User) (r : PollRequest) : Bool :=
  decide (registeredRole users r.sid = some "teacher")

/-! ## Sequences in which no registered session joins again -/

/-- Whether the turn is not a `user:join` of a session that has an entry in the
registry. -/
def freshJoin (s : State) (ev : Event) : Bool :=
  match ev with
  | Event.join sid _ => s.users.all (fun u => decide (u.socketId ≠ sid))
  | _ => true

/-- Whether, along a sequence of turns, every `user:join` comes from a session
that has no entry in the registry at that moment. -/
def freshJoins (s : State) : List (Nat × Event) → Bool
  | [] => true
  | (now, ev) :: rest => freshJoin s ev && freshJoins (step now ev s).state rest

/-- No two entries of the registry have the same socket id. -/
def UniqueIds (s : State) : Prop :=
  (s.users.map User.socketId).Nodup

/-! ## Sequences in which the active poll is neither closed by a vote nor replaced -/

/-- Whether the emissions hold the announcement of a new poll to all. -/
def announcesPoll (out : List Emission) : Bool :=
  out.any (fun e =>
    match e with
    | (Audience.all, Msg.newPoll _ _ _) => true
    | _ => false)

/-- Whether the turn is a tick, or else closes no poll and announces no new poll
to all (so it is no vote that completes the quorum and no accepted create-poll). -/
def keepsPoll (now : Nat) (ev : Event) (s : State) : Bool :=
  match ev with
  | Event.tick _ => true
  | _ =>
    (closedBy now s (step now ev s).emitted).isEmpty && !announcesPoll (step now ev s).emitted

/-- Whether every turn of the sequence is a tick or keeps the poll. -/
def calm (s : State) : List (Nat × Event) → Bool
  | [] => true
  | (now, ev) :: rest => keepsPoll now ev s && calm (step now ev s).state rest

/-- Whether the turn is a tick of an interval that is scheduled, so that the
callback runs. -/
def liveTick (s : State) (ev : Event) : Bool :=
  match ev with
  | Event.tick h => decide (h ∈ s.intervals)
  | _ => false

/-- The number of ticks that run the callback along the sequence. -/
def liveTicks (s : State) : List (Nat × Event) → Nat
  | [] => 0
  | (now, ev) :: rest => (if liveTick s ev then 1 else 0) + liveTicks (step now ev s).state rest

/-! ## A concrete session, for evaluating the handlers -/

/-- Two students and a teacher join, then the teacher opens a poll with two
options and sixty seconds. -/
def demoEvents : List (Nat × Event) :=
  [(1, Event.join "s1" (some { name := "Ann", role := "student" })),
   (2, Event.join "s2" (some { name := "Bob", role := "student" })),
   (3, Event.join "t" (some { name := "Tea", role := "teacher" })),
   (4, Event.createPoll "t" (some { question := "Q", options := some ["A", "B"], timer := 60 }))]

/-- The poll opened by `demoEvents`. -/
def demoPoll : Poll :=
  { question := "Q", options := ["A", "B"],
    results := [{ text := "A", votes := 0 }, { text := "B", votes := 0 }],
    timeLimit := 60, timeRemaining := 60, votes := [], startTime := 4 }

/-- The registry after `demoEvents`. -/
def demoUsers : List User :=
  [{ socketId := "s1", name := "Ann", role := "student" },
   { socketId := "s2", name := "Bob", role := "student" },
   { socketId := "t", name := "Tea", role := "teacher" }]

/-- The store after `demoEvents`. -/
def demoState : State :=
  { activePoll := some demoPoll, users := demoUsers, pollHistory := [], pollTimer := some 0,
    chatMessages := [], intervals := [0], nextInterval := 1 }

/-- The demo poll after the first student voted for option 1. -/
def demoVotedPoll : Poll :=
  { demoPoll with
    results := [{ text := "A", votes := 0 }, { text := "B", votes := 1 }], votes := ["s1"] }

/-- The demo store after the first student voted for option 1. -/
def demoVoted : State :=
  { demoState with activePoll := some demoVotedPoll }

/-- The last request of the teacher in `demoRequests`. -/
def demoLastRequest : PollRequest :=
  { now := 12, sid := "t", question := "Q3", options := ["E", "F", "G"], timer := 20 }

/-- Four requests sent in the demo session: by a student, twice by the teacher,
and by the other student. -/
def demoRequests : List PollRequest :=
  [{ now := 10, sid := "s1", question := "Q1", options := ["X", "Y"], timer := 5 },
   { now := 11, sid := "t", question := "Q2", options := ["C", "D"], timer := 30 },
   demoLastRequest,
   { now := 13, sid := "s2", question := "Q4", options := ["Z"], timer := 7 }]

/-- The demo poll, had it been opened with two seconds. -/
def demoShortPoll : Poll :=
  { demoPoll with timeLimit := 2, timeRemaining := 2 }

/-- The demo store with the two-second poll: the store after the three joins of
`demoEvents` and a create-poll of the teacher with timer 2 at clock reading 4. -/
def demoShort : State :=
  { demoState with activePoll := some demoShortPoll }

/-- Two ticks of the interval of the two-second poll, with a vote of the first
student between them. -/
def demoShortTurns : List (Nat × Event) :=
  [(5, Event.tick 0), (5, Event.submitVote "s1" (VotePayload.int 1)), (6, Event.tick 0)]

/-- The demo poll, had it been opened with 2^53 + 2 seconds. -/
def demoHugePoll : Poll :=
  { demoPoll with timeLimit := 9007199254740994, timeRemaining := 9007199254740994 }

/-- The demo store with the poll of 2^53 + 2 seconds. -/
def demoHuge : State :=
  { demoState with activePoll := some demoHugePoll }

/-- The demo poll, had it been opened with 10^21 seconds. -/
def demoEndlessPoll : Poll :=
  { demoPoll with timeLimit := 1000000000000000000000,
                  timeRemaining := 1000000000000000000000 }

/-- The demo store with the poll of 10^21 seconds. -/
def demoEndless : State :=
  { demoState with activePoll := some demoEndlessPoll }

/-! ## Facts about the helpers -/

theorem copyResults_eq (rs : List ResultRow) : copyResults rs = rs := by
  induction rs with
  | nil => rfl
  | cons r rs ih => simp [copyResults]

theorem freshResults_text (options : List String) :
    (freshResults options).map ResultRow.text = options := by
  induction options with
  | nil => rfl
  | cons o os ih => simpa [freshResults] using ih

theorem setHas_eq_false {votes : List SocketId} {sid : SocketId} (h : sid ∉ votes) :
    setHas votes sid = false := by
  simp [setHas, h]

theorem setAdd_of_not_mem {votes : List SocketId} {sid : SocketId} (h : sid ∉ votes) :
    setAdd votes sid = votes ++ [sid] := by
  simp [setAdd, h]

theorem incrementVotes_int_of_lt {rs : List ResultRow} {i : Int} (h0 : 0 ≤ i)
    (hi : i.toNat < rs.length) :
    incrementVotes rs (VotePayload.int i)
      = some (rs.set i.toNat { text := rs[i.toNat].text, votes := rs[i.toNat].votes + 1 }) := by
  simp [incrementVotes, h0, List.getElem?_eq_getElem hi]

theorem incrementVotes_int_out_of_range {rs : List ResultRow} {i : Int}
    (h : i < 0 ∨ (rs.length : Int) ≤ i) :
    incrementVotes rs (VotePayload.int i) = none := by
  unfold incrementVotes
  by_cases h0 : 0 ≤ i
  · have hlen : rs.length ≤ i.toNat := by omega
    simp [h0, List.getElem?_eq_none hlen]
  · simp [h0]

theorem incrementVotes_text {rs rs2 : List ResultRow} {k : VotePayload}
    (h : incrementVotes rs k = some rs2) :
    rs2.map ResultRow.text = rs.map ResultRow.text := by
  cases k with
  | lengthKey => simp [incrementVotes] at h; subst h; rfl
  | int i =>
    simp only [incrementVotes] at h
    split at h
    · split at h
      · exact absurd h (by simp)
      · rename_i r hr
        simp only [Option.some.injEq] at h
        subst h
        rw [List.map_set]
        apply List.ext_getElem?
        intro n
        by_cases hn : i.toNat = n
        · subst hn
          obtain ⟨hlt, hget⟩ := List.getElem?_eq_some.1 hr
          simp [List.getElem?_set, hlt, hget]
        · simp [List.getElem?_set, hn]
    · exact absurd h (by simp)

theorem run_invariant (P : State → Prop)
    (hstep : ∀ (now : Nat) (ev : Event) (s : State), P s → P (step now ev s).state) :
    ∀ (evs : List (Nat × Event)) (s : State), P s → P (run s evs) := by
  intro evs
  induction evs with
  | nil => intro s hs; exact hs
  | cons e rest ih =>
    intro s hs
    obtain ⟨now, ev⟩ := e
    exact ih _ (hstep now ev s hs)

theorem reachable_invariant (P : State → Prop) (h0 : P State.init)
    (hstep : ∀ (now : Nat) (ev : Event) (s : State), P s → P (step now ev s).state)
    {s : State} (hs : Reachable s) : P s := by
  obtain ⟨evs, rfl⟩ := hs
  exact run_invariant P hstep evs _ h0

theorem endPoll_activePoll (now : Nat) (s : State) : (endPoll now s).1.activePoll = none := by
  unfold endPoll
  cases h : s.activePoll <;> simp [h]

theorem aligned_step (now : Nat) (ev : Event) (s : State) (hs : Aligned s) :
    Aligned (step now ev s).state := by
  cases ev with
  | join sid payload =>
    cases payload with
    | none => simpa [step, userJoin, Outcome.raised] using hs
    | some pl => simpa [step, userJoin, Outcome.ok, Aligned] using hs
  | createPoll sid payload =>
    cases payload with
    | none => simpa [step, createPoll, Outcome.raised] using hs
    | some pl =>
      simp only [step, createPoll]
      split
      · exact hs
      · cases hopt : pl.options with
        | none => exact hs
        | some options =>
          intro p hp
          simp [Outcome.ok] at hp
          subst hp
          exact freshResults_text options
  | submitVote sid k =>
    simp only [step, submitVote]
    cases hp : s.activePoll with
    | none => simpa [Outcome.ok] using hs
    | some p =>
      simp only []
      split
      · exact hs
      · cases hinc : incrementVotes p.results k with
        | none =>
          intro q hq
          simp [Outcome.raised] at hq
          subst hq
          exact hs p hp
        | some rs =>
          simp only []
          split
          · intro q hq
            simp [Outcome.ok, endPoll_activePoll] at hq
          · intro q hq
            simp [Outcome.ok] at hq
            subst hq
            simp only []
            rw [incrementVotes_text hinc]
            exact hs p hp
  | removeStudent sid target =>
    simp only [step, removeStudent]
    split
    · exact hs
    · split
      · simpa [Outcome.ok, Aligned] using hs
      · exact hs
  | chatSendMessage sid payload later =>
    cases payload with
    | none => simpa [step, chatSendMessage, Outcome.raised] using hs
    | some pl =>
      simp only [step, chatSendMessage]
      cases findUser s.users sid with
      | none => exact hs
      | some sender => simpa [Outcome.ok, Aligned] using hs
  | chatRequestHistory sid => simpa [step, chatRequestHistory, Outcome.ok] using hs
  | disconnect sid => simpa [step, disconnect, Outcome.ok, Aligned] using hs
  | tick h =>
    simp only [step, tick]
    split
    · cases hp : s.activePoll with
      | none => simpa [Outcome.raised] using hs
      | some p =>
        simp only []
        split
        · intro q hq
          simp [Outcome.ok] at hq
          subst hq
          exact hs p hp
        · intro q hq
          simp [Outcome.ok, endPoll_activePoll] at hq
    · exact hs

theorem reachable_aligned {s : State} (hs : Reachable s) : Aligned s :=
  reachable_invariant Aligned (by intro p hp; simp [State.init] at hp) aligned_step hs

theorem archive_head (e : HistoryEntry) (h : List HistoryEntry) :
    (if (e :: h).length > 50 then (e :: h).dropLast else e :: h).head? = some e := by
  cases h with
  | nil => simp
  | cons a t => split <;> simp [List.dropLast]

theorem endPoll_of_active {s : State} {p : Poll} (now : Nat) (hp : s.activePoll = some p) :
    endPoll now s =
      ({ s with activePoll := none, pollTimer := none,
                pollHistory :=
                  if ({ question := p.question, results := p.results, endedAt := now }
                        :: s.pollHistory).length > 50
                  then ({ question := p.question, results := p.results, endedAt := now }
                        :: s.pollHistory).dropLast
                  else { question := p.question, results := p.results, endedAt := now }
                        :: s.pollHistory,
                intervals := clearInterval s.pollTimer s.intervals },
       [(Audience.all, Msg.pollEnded p.results),
        (Audience.all, Msg.historyUpdate
          (if ({ question := p.question, results := p.results, endedAt := now }
                  :: s.pollHistory).length > 50
           then ({ question := p.question, results := p.results, endedAt := now }
                  :: s.pollHistory).dropLast
           else { question := p.question, results := p.results, endedAt := now }
                  :: s.pollHistory))]) := by
  simp [endPoll, hp, copyResults_eq]

/-- The store right after a vote is recorded (lines 117-118). -/
theorem submitVote_of_recorded {s : State} {p : Poll} {sid : SocketId} {k : VotePayload}
    {rs : List ResultRow} (now : Nat) (hp : s.activePoll = some p) (hsid : sid ∉ p.votes)
    (hinc : incrementVotes p.results k = some rs) :
    submitVote now sid k s =
      if (p.votes ++ [sid]).length ≥ studentCount s.users then
        Outcome.ok
          (endPoll now
            { s with
              activePoll := some { p with votes := p.votes ++ [sid], results := rs } }).1
          ((Audience.all, Msg.updateResults rs) ::
            (endPoll now
              { s with
                activePoll := some { p with votes := p.votes ++ [sid], results := rs } }).2)
      else
        Outcome.ok
          { s with activePoll := some { p with votes := p.votes ++ [sid], results := rs } }
          [(Audience.all, Msg.updateResults rs)] := by
  simp [submitVote, hp, setHas_eq_false hsid, setAdd_of_not_mem hsid, hinc, copyResults_eq]

/-- C1: in a reachable state with an active poll, a vote by a session that has not
voted, for an index within the options, adds the session to the voter set,
raises the count of that option by one and leaves every other count and every
text as it was; the handler completes, and its first emission is the updated
tally, sent to all. The poll holding the recorded vote is then either still the
active poll or has just been closed with that tally in the newest history entry. -/
theorem submitVote_records_vote (now : Nat) (sid : SocketId) (i : Int) (s : State) (p : Poll)
    (hs : Reachable s) (hp : s.activePoll = some p) (hsid : sid ∉ p.votes)
    (h0 : 0 ≤ i) (hi : i < (p.options.length : Int)) :
    ∃ (r : ResultRow) (p2 : Poll),
      p.results[i.toNat]? = some r ∧
      p2 = { p with votes := p.votes ++ [sid],
                    results := p.results.set i.toNat { text := r.text, votes := r.votes + 1 } } ∧
      sid ∈ p2.votes ∧
      p2.results[i.toNat]? = some { text := r.text, votes := r.votes + 1 } ∧
      (∀ j : Nat, j ≠ i.toNat → p2.results[j]? = p.results[j]?) ∧
      p2.results.map ResultRow.text = p.results.map ResultRow.text ∧
      p2.options = p.options ∧
      (submitVote now sid (VotePayload.int i) s).fault = false ∧
      (submitVote now sid (VotePayload.int i) s).emitted.head?
        = some (Audience.all, Msg.updateResults p2.results) ∧
      ((submitVote now sid (VotePayload.int i) s).state.activePoll = some p2 ∨
       ((submitVote now sid (VotePayload.int i) s).state.activePoll = none ∧
        ∃ e : HistoryEntry,
          (submitVote now sid (VotePayload.int i) s).state.pollHistory.head? = some e ∧
          e.results = p2.results)) := by
  have hal : p.results.map ResultRow.text = p.options := reachable_aligned hs p hp
  have hlen : p.results.length = p.options.length := by
    rw [← hal, List.length_map]
  have hlt : i.toNat < p.results.length := by omega
  have hinc := @incrementVotes_int_of_lt p.results i h0 hlt
  refine ⟨p.results[i.toNat], _, List.getElem?_eq_getElem hlt, rfl, by simp, ?_, ?_, ?_, rfl,
    ?_⟩
  · simp [List.getElem?_set, hlt]
  · intro j hj
    simp [List.getElem?_set, Ne.symm hj]
  · have := incrementVotes_text hinc
    simpa using this
  · rw [submitVote_of_recorded now hp hsid hinc]
    by_cases hq : (p.votes ++ [sid]).length ≥ studentCount s.users
    · rw [if_pos hq]
      refine ⟨rfl, rfl, Or.inr ⟨?_, ?_⟩⟩
      · simp [Outcome.ok, endPoll_activePoll]
      · rw [endPoll_of_active now rfl]
        exact ⟨_, archive_head _ _, rfl⟩
    · rw [if_neg hq]
      exact ⟨rfl, rfl, Or.inl rfl⟩

theorem demoState_eq : run State.init demoEvents = demoState := by decide

theorem demoState_reachable : Reachable demoState := ⟨demoEvents, demoState_eq⟩

/-- Witness for C1: in the demo session, the first student votes for option 1. -/
theorem submitVote_records_vote_witness :
    Reachable demoState ∧ demoState.activePoll = some demoPoll ∧ "s1" ∉ demoPoll.votes ∧
    (0 : Int) ≤ 1 ∧ (1 : Int) < (demoPoll.options.length : Int) ∧
    ∃ (r : ResultRow) (p2 : Poll),
      demoPoll.results[(1 : Int).toNat]? = some r ∧
      p2 = { demoPoll with
              votes := demoPoll.votes ++ ["s1"],
              results := demoPoll.results.set (1 : Int).toNat
                { text := r.text, votes := r.votes + 1 } } ∧
      "s1" ∈ p2.votes ∧
      p2.results[(1 : Int).toNat]? = some { text := r.text, votes := r.votes + 1 } ∧
      (∀ j : Nat, j ≠ (1 : Int).toNat → p2.results[j]? = demoPoll.results[j]?) ∧
      p2.results.map ResultRow.text = demoPoll.results.map ResultRow.text ∧
      p2.options = demoPoll.options ∧
      (submitVote 5 "s1" (VotePayload.int 1) demoState).fault = false ∧
      (submitVote 5 "s1" (VotePayload.int 1) demoState).emitted.head?
        = some (Audience.all, Msg.updateResults p2.results) ∧
      ((submitVote 5 "s1" (VotePayload.int 1) demoState).state.activePoll = some p2 ∨
       ((submitVote 5 "s1" (VotePayload.int 1) demoState).state.activePoll = none ∧
        ∃ e : HistoryEntry,
          (submitVote 5 "s1" (VotePayload.int 1) demoState).state.pollHistory.head? = some e ∧
          e.results = p2.results)) :=
  ⟨demoState_reachable, rfl, by decide, by decide, by decide,
   submitVote_records_vote 5 "s1" 1 demoState demoPoll demoState_reachable rfl
     (by decide) (by decide) (by decide)⟩

/-- C2: a vote is dropped, with the store unchanged, nothing emitted and the handler
completed, when no poll is active or the session is already in the voter set of
the active poll; hence, whatever a first vote of a session did, a further vote
of the same session right after it changes nothing. -/
theorem submitVote_duplicate_or_idle_is_noop (now : Nat) (sid : SocketId) (k : VotePayload)
    (s : State) :
    ((s.activePoll = none ∨ ∃ p : Poll, s.activePoll = some p ∧ sid ∈ p.votes) →
      (submitVote now sid k s).state = s ∧ (submitVote now sid k s).emitted = [] ∧
      (submitVote now sid k s).fault = false) ∧
    (∀ (later : Nat) (k2 : VotePayload),
      (submitVote later sid k2 (submitVote now sid k s).state).state
          = (submitVote now sid k s).state ∧
      (submitVote later sid k2 (submitVote now sid k s).state).emitted = [] ∧
      (submitVote later sid k2 (submitVote now sid k s).state).fault = false) := by
  have noop : ∀ (t : State) (n : Nat) (k1 : VotePayload),
      (t.activePoll = none ∨ ∃ p : Poll, t.activePoll = some p ∧ sid ∈ p.votes) →
      submitVote n sid k1 t = Outcome.ok t [] := by
    intro t n k1 h
    rcases h with h | ⟨p, hp, hmem⟩
    · simp [submitVote, h]
    · simp [submitVote, hp, setHas, hmem]
  refine ⟨fun h => by rw [noop s now k h]; exact ⟨rfl, rfl, rfl⟩, ?_⟩
  intro later k2
  have hstate : (submitVote now sid k s).state.activePoll = none ∨
      ∃ p : Poll, (submitVote now sid k s).state.activePoll = some p ∧ sid ∈ p.votes := by
    cases hp : s.activePoll with
    | none => left; simp [submitVote, hp, Outcome.ok]
    | some p =>
      by_cases hmem : sid ∈ p.votes
      · right
        exact ⟨p, by simp [submitVote, hp, setHas, hmem, Outcome.ok], hmem⟩
      · cases hinc : incrementVotes p.results k with
        | none =>
          right
          exact ⟨{ p with votes := p.votes ++ [sid] },
            by simp [submitVote, hp, setHas_eq_false hmem, setAdd_of_not_mem hmem, hinc,
              Outcome.raised], by simp⟩
        | some rs =>
          rw [submitVote_of_recorded now hp hmem hinc]
          by_cases hq : (p.votes ++ [sid]).length ≥ studentCount s.users
          · left
            rw [if_pos hq]
            simp [Outcome.ok, endPoll_activePoll]
          · right
            rw [if_neg hq]
            exact ⟨_, rfl, by simp⟩
  rw [noop _ later k2 hstate]
  exact ⟨rfl, rfl, rfl⟩

/-- Witness for C2: in the demo session the first student, having voted for
option 1, votes again for option 0. -/
theorem submitVote_duplicate_or_idle_is_noop_witness :
    (demoVoted.activePoll = none ∨
      ∃ p : Poll, demoVoted.activePoll = some p ∧ "s1" ∈ p.votes) ∧
    (submitVote 6 "s1" (VotePayload.int 0) demoVoted).state = demoVoted ∧
    (submitVote 6 "s1" (VotePayload.int 0) demoVoted).emitted = [] ∧
    (submitVote 6 "s1" (VotePayload.int 0) demoVoted).fault = false :=
  ⟨Or.inr ⟨demoVotedPoll, rfl, by decide⟩,
   (submitVote_duplicate_or_idle_is_noop 6 "s1" (VotePayload.int 0) demoVoted).1
     (Or.inr ⟨demoVotedPoll, rfl, by decide⟩)⟩

/-- What the handler does with an index outside the tally: the voter is added
(line 117), then line 118 raises; nothing is emitted and the tally is untouched. -/
theorem submitVote_of_index_out_of_range {s : State} {p : Poll} {sid : SocketId} {i : Int}
    (now : Nat) (hp : s.activePoll = some p) (hsid : sid ∉ p.votes)
    (hi : i < 0 ∨ (p.results.length : Int) ≤ i) :
    submitVote now sid (VotePayload.int i) s =
      Outcome.raised { s with activePoll := some { p with votes := p.votes ++ [sid] } } [] := by
  simp [submitVote, hp, setHas_eq_false hsid, setAdd_of_not_mem hsid,
    incrementVotes_int_out_of_range hi]

/-- C3, evaluated: after the demo session, the first student sends a vote with
index 5 (the poll has two options). The handler adds the session to the voter
set and raises before counting, so the store holds one voter and a tally whose
sum is zero. With the key "length" the same store results and the handler
completes, broadcasting the unchanged tally. -/
theorem voters_outnumber_tally_after_bad_index :
    run State.init (demoEvents ++ [(5, Event.submitVote "s1" (VotePayload.int 5))])
      = { demoState with activePoll := some { demoPoll with votes := ["s1"] } } ∧
    (step 5 (Event.submitVote "s1" (VotePayload.int 5)) demoState).fault = true ∧
    totalVotes demoPoll.results = 0 ∧
    step 5 (Event.submitVote "s1" VotePayload.lengthKey) demoState
      = Outcome.ok { demoState with activePoll := some { demoPoll with votes := ["s1"] } }
          [(Audience.all, Msg.updateResults demoPoll.results)] := by
  decide

/-- C4, evaluated: in the demo session a vote of a student who has not voted, with
index 5 or with index -1, is not dropped: the handler adds the session to the
voter set and then raises. -/
theorem out_of_range_vote_adds_voter_then_raises :
    submitVote 5 "s1" (VotePayload.int 5) demoState
      = Outcome.raised
          { demoState with activePoll := some { demoPoll with votes := ["s1"] } } [] ∧
    submitVote 5 "s1" (VotePayload.int (-1)) demoState
      = Outcome.raised
          { demoState with activePoll := some { demoPoll with votes := ["s1"] } } [] := by
  decide

/-- C5, evaluated: in the demo session the teacher sends a vote for option 0. The
vote is recorded and broadcast like any other; it also counts towards the
quorum, so that one more vote, of the first student, closes the poll while the
second student has not voted. -/
theorem teacher_vote_is_recorded :
    registeredRole demoState.users "t" = some "teacher" ∧
    submitVote 5 "t" (VotePayload.int 0) demoState
      = Outcome.ok
          { demoState with
            activePoll := some
              { demoPoll with
                results := [{ text := "A", votes := 1 }, { text := "B", votes := 0 }],
                votes := ["t"] } }
          [(Audience.all,
            Msg.updateResults [{ text := "A", votes := 1 }, { text := "B", votes := 0 }])] ∧
    (run demoState
        [(5, Event.submitVote "t" (VotePayload.int 0)),
         (6, Event.submitVote "s1" (VotePayload.int 1))]).activePoll = none := by
  decide

/-- C6: a create-poll or remove-student event of a session whose registry entry
has role student, or that has no registry entry, leaves the whole store
unchanged and emits nothing, whatever the payload; with a payload object the
create-poll handler completes, and the remove-student handler always does. -/
theorem teacher_events_dropped_for_non_teacher (now : Nat) (sid : SocketId) (s : State)
    (h : registeredRole s.users sid = some "student" ∨ ∀ u ∈ s.users, u.socketId ≠ sid) :
    (∀ payload : Option CreatePollPayload,
      (createPoll now sid payload s).state = s ∧ (createPoll now sid payload s).emitted = []) ∧
    (∀ pl : CreatePollPayload, (createPoll now sid (some pl) s).fault = false) ∧
    (∀ studentSocketId : SocketId,
      (removeStudent sid studentSocketId s).state = s ∧
      (removeStudent sid studentSocketId s).emitted = [] ∧
      (removeStudent sid studentSocketId s).fault = false) := by
  have hrole : registeredRole s.users sid ≠ some "teacher" := by
    rcases h with h | h
    · rw [h]; decide
    · have hnone : findUser s.users sid = none := by
        simp only [findUser, List.find?_eq_none]
        intro u hu
        simpa using h u hu
      simp [registeredRole, hnone]
  refine ⟨?_, ?_, ?_⟩
  · intro payload
    cases payload with
    | none => exact ⟨rfl, rfl⟩
    | some pl => simp [createPoll, hrole, Outcome.ok]
  · intro pl
    simp [createPoll, hrole, Outcome.ok]
  · intro studentSocketId
    simp [removeStudent, hrole, Outcome.ok]

/-- Witness for C6: in the demo session the first student sends the two teacher
events. -/
theorem teacher_events_dropped_for_non_teacher_witness :
    (registeredRole demoState.users "s1" = some "student" ∨
      ∀ u ∈ demoState.users, u.socketId ≠ "s1") ∧
    (∀ payload : Option CreatePollPayload,
      (createPoll 7 "s1" payload demoState).state = demoState ∧
      (createPoll 7 "s1" payload demoState).emitted = []) ∧
    (∀ pl : CreatePollPayload, (createPoll 7 "s1" (some pl) demoState).fault = false) ∧
    (∀ studentSocketId : SocketId,
      (removeStudent "s1" studentSocketId demoState).state = demoState ∧
      (removeStudent "s1" studentSocketId demoState).emitted = [] ∧
      (removeStudent "s1" studentSocketId demoState).fault = false) :=
  ⟨Or.inl (by decide),
   teacher_events_dropped_for_non_teacher 7 "s1" demoState (Or.inl (by decide))⟩

/-- C7, as stated, fails: in the demo session the teacher sends a create-poll with
a single option and a question of blanks. The poll of the demo session is
replaced, a new interval is scheduled and the announcement is broadcast. -/
theorem createPoll_accepts_one_option_and_blank_question :
    registeredRole demoState.users "t" = some "teacher" ∧
    createPoll 9 "t" (some { question := "  ", options := some ["A"], timer := 10 }) demoState
      = Outcome.ok
          { demoState with
            activePoll := some
              { question := "  ", options := ["A"], results := [{ text := "A", votes := 0 }],
                timeLimit := 10, timeRemaining := 10, votes := [], startTime := 9 },
            pollTimer := some 1, intervals := [1], nextInterval := 2 }
          [(Audience.all, Msg.newPoll "  " ["A"] 10)] ∧
    (createPoll 9 "t" (some { question := "  ", options := some ["A"], timer := 10 })
      demoState).state ≠ demoState := by
  decide

/-- C7, amended: a create-poll of a registered teacher whose options are a list is
accepted whatever the question and however many options there are. The new poll
becomes the active poll, with a zero count per option and no voters; the running
interval is cleared and a fresh one scheduled; registry, history and chat log
are unchanged; the only emission is the announcement to all. -/
theorem createPoll_accepts_any_question_and_options (now : Nat) (sid : SocketId)
    (question : String) (options : List String) (timer : Int) (s : State)
    (h : registeredRole s.users sid = some "teacher") :
    createPoll now sid (some { question := question, options := some options, timer := timer }) s
      = Outcome.ok
          { s with
            activePoll := some
              { question := question, options := options,
                results := options.map (fun text => { text := text, votes := 0 }),
                timeLimit := timer, timeRemaining := timer, votes := [], startTime := now },
            pollTimer := some s.nextInterval,
            intervals := clearInterval s.pollTimer s.intervals ++ [s.nextInterval],
            nextInterval := s.nextInterval + 1 }
          [(Audience.all, Msg.newPoll question options timer)] := by
  simp [createPoll, h, freshResults]

/-- Witness for C7, amended: the teacher of the demo session opens a poll with no
option at all and an empty question. -/
theorem createPoll_accepts_any_question_and_options_witness :
    registeredRole demoState.users "t" = some "teacher" ∧
    createPoll 9 "t" (some { question := "", options := some [], timer := 10 }) demoState
      = Outcome.ok
          { demoState with
            activePoll := some
              { question := "", options := [],
                results := ([] : List String).map (fun text => { text := text, votes := 0 }),
                timeLimit := 10, timeRemaining := 10, votes := [], startTime := 9 },
            pollTimer := some demoState.nextInterval,
            intervals :=
              clearInterval demoState.pollTimer demoState.intervals ++ [demoState.nextInterval],
            nextInterval := demoState.nextInterval + 1 }
          [(Audience.all, Msg.newPoll "" [] 10)] :=
  ⟨by decide, createPoll_accepts_any_question_and_options 9 "t" "" [] 10 demoState (by decide)⟩

theorem archive_eq_take (e : HistoryEntry) {h : List HistoryEntry} (hlen : h.length ≤ 50) :
    (if (e :: h).length > 50 then (e :: h).dropLast else e :: h) = (e :: h).take 50 := by
  by_cases h50 : (e :: h).length > 50
  · rw [if_pos h50, List.dropLast_eq_take]
    have : (e :: h).length - 1 = 50 := by simp at h50 ⊢; omega
    rw [this]
  · rw [if_neg h50, List.take_of_length_le (by omega)]

theorem take_append_take {α : Type} (n : Nat) (a b : List α) :
    (a ++ b.take n).take n = (a ++ b).take n := by
  rw [List.take_append_eq_append_take, List.take_append_eq_append_take, List.take_take]
  congr 2
  omega

/-- What one turn does to the history: nothing, with no poll closed; or one
entry archived, for the one poll closed. -/
theorem step_history (now : Nat) (ev : Event) (s : State) :
    (closedBy now s (step now ev s).emitted = [] ∧
      (step now ev s).state.pollHistory = s.pollHistory) ∨
    (∃ e : HistoryEntry, closedBy now s (step now ev s).emitted = [e] ∧
      (step now ev s).state.pollHistory
        = if (e :: s.pollHistory).length > 50 then (e :: s.pollHistory).dropLast
          else e :: s.pollHistory) := by
  cases ev with
  | join sid payload =>
    left
    cases payload with
    | none => simp [step, userJoin, Outcome.raised, closedBy]
    | some pl =>
      cases hp : s.activePoll <;> by_cases hr : pl.role = "teacher" <;>
        simp [step, userJoin, Outcome.ok, closedBy, hp, hr]
  | createPoll sid payload =>
    left
    cases payload with
    | none => simp [step, createPoll, Outcome.raised, closedBy]
    | some pl =>
      simp only [step, createPoll]
      split
      · simp [Outcome.ok, closedBy]
      · cases hopt : pl.options with
        | none => simp [Outcome.raised, closedBy]
        | some options => simp [Outcome.ok, closedBy]
  | submitVote sid k =>
    simp only [step]
    cases hp : s.activePoll with
    | none => left; simp [submitVote, hp, Outcome.ok, closedBy]
    | some p =>
      by_cases hmem : sid ∈ p.votes
      · left; simp [submitVote, hp, setHas, hmem, Outcome.ok, closedBy]
      · cases hinc : incrementVotes p.results k with
        | none =>
          left
          simp [submitVote, hp, setHas_eq_false hmem, setAdd_of_not_mem hmem, hinc,
            Outcome.raised, closedBy]
        | some rs =>
          rw [submitVote_of_recorded now hp hmem hinc]
          by_cases hq : (p.votes ++ [sid]).length ≥ studentCount s.users
          · right
            rw [if_pos hq, endPoll_of_active now rfl]
            exact ⟨{ question := p.question, results := rs, endedAt := now },
              by simp [Outcome.ok, closedBy, hp], rfl⟩
          · left
            rw [if_neg hq]
            simp [Outcome.ok, closedBy, hp]
  | removeStudent sid target =>
    left
    simp only [step, removeStudent]
    split
    · simp [Outcome.ok, closedBy]
    · split <;> simp [Outcome.ok, closedBy]
  | chatSendMessage sid payload later =>
    left
    cases payload with
    | none => simp [step, chatSendMessage, Outcome.raised, closedBy]
    | some pl =>
      simp only [step, chatSendMessage]
      cases findUser s.users sid with
      | none => simp [Outcome.ok, closedBy]
      | some sender =>
        cases recipientSet pl.recipientId <;> simp [Outcome.ok, closedBy]
  | chatRequestHistory sid => left; simp [step, chatRequestHistory, Outcome.ok, closedBy]
  | disconnect sid => left; simp [step, disconnect, Outcome.ok, closedBy]
  | tick h =>
    simp only [step, tick]
    by_cases hh : h ∈ s.intervals
    · rw [if_pos hh]
      cases hp : s.activePoll with
      | none => left; simp [Outcome.raised, closedBy]
      | some p =>
        simp only []
        by_cases ht : p.timeRemaining > 0
        · left
          rw [if_pos ht]
          simp [Outcome.ok, closedBy, hp]
        · right
          rw [if_neg ht, endPoll_of_active now hp]
          exact ⟨{ question := p.question, results := p.results, endedAt := now },
            by simp [Outcome.ok, closedBy, hp], rfl⟩
    · left
      rw [if_neg hh]
      simp [Outcome.ok, closedBy]

theorem step_history_length (now : Nat) (ev : Event) (s : State)
    (h : s.pollHistory.length ≤ 50) : (step now ev s).state.pollHistory.length ≤ 50 := by
  rcases step_history now ev s with ⟨_, h2⟩ | ⟨e, _, h2⟩
  · rw [h2]; exact h
  · rw [h2, archive_eq_take e h, List.length_take]
    exact Nat.min_le_left _ _

theorem reachable_history_length {s : State} (hs : Reachable s) : s.pollHistory.length ≤ 50 :=
  reachable_invariant (fun t => t.pollHistory.length ≤ 50) (by simp [State.init])
    step_history_length hs

theorem run_history (evs : List (Nat × Event)) :
    ∀ s : State, s.pollHistory.length ≤ 50 →
      (run s evs).pollHistory = ((closedLog s evs).reverse ++ s.pollHistory).take 50 := by
  induction evs with
  | nil =>
    intro s hs
    simp [run, closedLog, List.take_of_length_le hs]
  | cons x rest ih =>
    intro s hs
    obtain ⟨now, ev⟩ := x
    have hlen := step_history_length now ev s hs
    simp only [run, closedLog]
    rw [ih _ hlen, List.reverse_append, List.append_assoc]
    rcases step_history now ev s with ⟨h1, h2⟩ | ⟨e, h1, h2⟩
    · rw [h1, h2]; simp
    · rw [h1, h2, archive_eq_take e hs]
      simpa using take_append_take 50 (closedLog (step now ev s).state rest).reverse
        (e :: s.pollHistory)

set_option maxRecDepth 100000 in
/-- A session in which 51 polls are closed: a teacher and a student join, then 51
times the teacher opens a poll and the vote of the only student closes it, at
clock readings 0 to 50. The history then holds the polls closed at 50 down to 1. -/
theorem fifty_one_polls_closed :
    (closedLog State.init
      ((0, Event.join "t" (some { name := "Tea", role := "teacher" })) ::
       (0, Event.join "s1" (some { name := "Ann", role := "student" })) ::
        ((List.range 51).flatMap (fun n =>
          [(n, Event.createPoll "t"
              (some { question := "Q", options := some ["A", "B"], timer := 60 })),
           (n, Event.submitVote "s1" (VotePayload.int 0))])))).length = 51 ∧
    (run State.init
      ((0, Event.join "t" (some { name := "Tea", role := "teacher" })) ::
       (0, Event.join "s1" (some { name := "Ann", role := "student" })) ::
        ((List.range 51).flatMap (fun n =>
          [(n, Event.createPoll "t"
              (some { question := "Q", options := some ["A", "B"], timer := 60 })),
           (n, Event.submitVote "s1" (VotePayload.int 0))])))).pollHistory.map
        HistoryEntry.endedAt = (List.range' 1 50).reverse := by
  decide

theorem not_mem_clearInterval (h : Nat) (intervals : List Nat) :
    h ∉ clearInterval (some h) intervals := by
  simp [clearInterval]

/-- C8: in a reachable state with an active poll, take a vote of a session that
has not voted, for an index within the options. If with this vote the voter set
reaches the number of registered students, the same turn closes the poll,
whatever time remains: no poll is active, `pollTimer` is null and its interval
is no longer scheduled, one entry with the tally that includes this vote is put
in front of the history (cut to 50), and the emissions are the updated tally,
the final results and the history, each to all. If the voter set stays below
that number, the poll stays active with the vote recorded, and history and
timer are as before. -/
theorem quorum_vote_closes_poll (now : Nat) (sid : SocketId) (i : Int) (s : State) (p : Poll)
    (hs : Reachable s) (hp : s.activePoll = some p) (hsid : sid ∉ p.votes)
    (h0 : 0 ≤ i) (hi : i < (p.options.length : Int)) :
    ∃ r : ResultRow, p.results[i.toNat]? = some r ∧
      ((p.votes ++ [sid]).length ≥ studentCount s.users →
        (submitVote now sid (VotePayload.int i) s).state.activePoll = none ∧
        (submitVote now sid (VotePayload.int i) s).state.pollTimer = none ∧
        (∀ h : Nat, s.pollTimer = some h →
          h ∉ (submitVote now sid (VotePayload.int i) s).state.intervals) ∧
        (submitVote now sid (VotePayload.int i) s).state.pollHistory
          = ({ question := p.question,
               results := p.results.set i.toNat { text := r.text, votes := r.votes + 1 },
               endedAt := now } :: s.pollHistory).take 50 ∧
        (submitVote now sid (VotePayload.int i) s).emitted
          = [(Audience.all, Msg.updateResults
                (p.results.set i.toNat { text := r.text, votes := r.votes + 1 })),
             (Audience.all, Msg.pollEnded
                (p.results.set i.toNat { text := r.text, votes := r.votes + 1 })),
             (Audience.all, Msg.historyUpdate
                (submitVote now sid (VotePayload.int i) s).state.pollHistory)] ∧
        (submitVote now sid (VotePayload.int i) s).fault = false) ∧
      ((p.votes ++ [sid]).length < studentCount s.users →
        (submitVote now sid (VotePayload.int i) s).state.activePoll
          = some { p with
                   votes := p.votes ++ [sid],
                   results := p.results.set i.toNat { text := r.text, votes := r.votes + 1 } } ∧
        (submitVote now sid (VotePayload.int i) s).state.pollHistory = s.pollHistory ∧
        (submitVote now sid (VotePayload.int i) s).state.pollTimer = s.pollTimer ∧
        (submitVote now sid (VotePayload.int i) s).state.intervals = s.intervals ∧
        (submitVote now sid (VotePayload.int i) s).fault = false) := by
  have hal : p.results.map ResultRow.text = p.options := reachable_aligned hs p hp
  have hlen : p.results.length = p.options.length := by
    rw [← hal, List.length_map]
  have hlt : i.toNat < p.results.length := by omega
  have hinc := @incrementVotes_int_of_lt p.results i h0 hlt
  have hhist := reachable_history_length hs
  refine ⟨p.results[i.toNat], List.getElem?_eq_getElem hlt, ?_, ?_⟩
  · intro hq
    rw [submitVote_of_recorded now hp hsid hinc, if_pos hq, endPoll_of_active now rfl]
    refine ⟨rfl, rfl, ?_, ?_, ?_, rfl⟩
    · intro h hh
      simp only [Outcome.ok, hh]
      exact not_mem_clearInterval h s.intervals
    · exact archive_eq_take _ hhist
    · rfl
  · intro hq
    rw [submitVote_of_recorded now hp hsid hinc, if_neg (by omega)]
    exact ⟨rfl, rfl, rfl, rfl, rfl⟩

theorem demoVoted_reachable : Reachable demoVoted :=
  ⟨demoEvents ++ [(5, Event.submitVote "s1" (VotePayload.int 1))], by decide⟩

/-- Witness for C8: in the demo session, the first student having voted, the vote
of the second student completes the quorum of two and closes the poll. -/
theorem quorum_vote_closes_poll_witness :
    (Reachable demoVoted ∧ demoVoted.activePoll = some demoVotedPoll ∧
      "s2" ∉ demoVotedPoll.votes ∧ (0 : Int) ≤ 0 ∧
      (0 : Int) < (demoVotedPoll.options.length : Int) ∧
      (demoVotedPoll.votes ++ ["s2"]).length ≥ studentCount demoVoted.users) ∧
    (submitVote 6 "s2" (VotePayload.int 0) demoVoted).state.activePoll = none ∧
    (submitVote 6 "s2" (VotePayload.int 0) demoVoted).state.pollHistory
      = [{ question := "Q",
           results := [{ text := "A", votes := 1 }, { text := "B", votes := 1 }],
           endedAt := 6 }] := by
  refine ⟨⟨demoVoted_reachable, rfl, by decide, by decide, by decide, by decide⟩, ?_⟩
  obtain ⟨r, hr, hclose, _⟩ :=
    quorum_vote_closes_poll 6 "s2" 0 demoVoted demoVotedPoll demoVoted_reachable rfl
      (by decide) (by decide) (by decide)
  have hr2 : r = { text := "A", votes := 0 } := by
    have : demoVotedPoll.results[(0 : Int).toNat]? = some { text := "A", votes := 0 } := by
      decide
    rw [this] at hr
    exact (Option.some.inj hr).symm
  subst hr2
  obtain ⟨h1, _, _, h4, _⟩ := hclose (by decide)
  exact ⟨h1, by rw [h4]; decide⟩

theorem push_shift_eq_drop (m : ChatMessage) {c : List ChatMessage} (hlen : c.length ≤ 100) :
    (if (c ++ [m]).length > 100 then (c ++ [m]).tail else c ++ [m])
      = (c ++ [m]).drop ((c ++ [m]).length - 100) := by
  by_cases h : (c ++ [m]).length > 100
  · have h1 : (c ++ [m]).length - 100 = 1 := by
      simp at h ⊢; omega
    rw [if_pos h, h1, List.drop_one]
  · have h0 : (c ++ [m]).length - 100 = 0 := by omega
    rw [if_neg h, h0, List.drop_zero]

theorem push_shift_eq_append (m : ChatMessage) {c : List ChatMessage} (hlen : c.length ≤ 100) :
    (if (c ++ [m]).length > 100 then (c ++ [m]).tail else c ++ [m])
      = c.drop (c.length - 99) ++ [m] := by
  rw [push_shift_eq_drop m hlen]
  have hlen2 : (c ++ [m]).length = c.length + 1 := by simp
  have hle : c.length + 1 - 100 ≤ c.length := by omega
  have hsub : c.length + 1 - 100 = c.length - 99 := by omega
  rw [hlen2, List.drop_append_of_le_length hle, hsub]

theorem drop_append_drop {α : Type} (n : Nat) (a b : List α) :
    (a.drop (a.length - n) ++ b).drop ((a.drop (a.length - n) ++ b).length - n)
      = (a ++ b).drop ((a ++ b).length - n) := by
  by_cases h : a.length ≤ n
  · rw [Nat.sub_eq_zero_of_le h, List.drop_zero]
  · have h1 : (a.drop (a.length - n) ++ b).length - n = b.length := by
      simp; omega
    have h2 : (a ++ b).length - n = (a.length - n) + b.length := by
      simp; omega
    have h3 : (a ++ b).drop (a.length - n + b.length)
        = ((a ++ b).drop (a.length - n)).drop b.length :=
      (List.drop_drop b.length (a.length - n) (a ++ b)).symm
    have h4 : a.length - n ≤ a.length := by omega
    rw [h1, h2, h3, List.drop_append_of_le_length h4]

/-- What one turn does to the chat log: nothing, with no message accepted; or
one message pushed, and the first one shifted out when that makes 101. -/
theorem step_chat (now : Nat) (ev : Event) (s : State) :
    (chatAccepted (step now ev s).emitted = none ∧
      (step now ev s).state.chatMessages = s.chatMessages) ∨
    (∃ m : ChatMessage, chatAccepted (step now ev s).emitted = some m ∧
      (step now ev s).state.chatMessages
        = if (s.chatMessages ++ [m]).length > 100 then (s.chatMessages ++ [m]).tail
          else s.chatMessages ++ [m]) := by
  cases ev with
  | join sid payload =>
    left
    cases payload with
    | none => simp [step, userJoin, Outcome.raised, chatAccepted]
    | some pl =>
      cases hp : s.activePoll <;> by_cases hr : pl.role = "teacher" <;>
        simp [step, userJoin, Outcome.ok, chatAccepted, hp, hr]
  | createPoll sid payload =>
    left
    cases payload with
    | none => simp [step, createPoll, Outcome.raised, chatAccepted]
    | some pl =>
      simp only [step, createPoll]
      split
      · simp [Outcome.ok, chatAccepted]
      · cases hopt : pl.options with
        | none => simp [Outcome.raised, chatAccepted]
        | some options => simp [Outcome.ok, chatAccepted]
  | submitVote sid k =>
    left
    simp only [step]
    cases hp : s.activePoll with
    | none => simp [submitVote, hp, Outcome.ok, chatAccepted]
    | some p =>
      by_cases hmem : sid ∈ p.votes
      · simp [submitVote, hp, setHas, hmem, Outcome.ok, chatAccepted]
      · cases hinc : incrementVotes p.results k with
        | none =>
          simp [submitVote, hp, setHas_eq_false hmem, setAdd_of_not_mem hmem, hinc,
            Outcome.raised, chatAccepted]
        | some rs =>
          rw [submitVote_of_recorded now hp hmem hinc]
          by_cases hq : (p.votes ++ [sid]).length ≥ studentCount s.users
          · rw [if_pos hq, endPoll_of_active now rfl]
            simp [Outcome.ok, chatAccepted]
          · rw [if_neg hq]
            simp [Outcome.ok, chatAccepted]
  | removeStudent sid target =>
    left
    simp only [step, removeStudent]
    split
    · simp [Outcome.ok, chatAccepted]
    · split <;> simp [Outcome.ok, chatAccepted]
  | chatSendMessage sid payload later =>
    cases payload with
    | none => left; simp [step, chatSendMessage, Outcome.raised, chatAccepted]
    | some pl =>
      simp only [step, chatSendMessage]
      cases hf : findUser s.users sid with
      | none => left; simp [Outcome.ok, chatAccepted]
      | some sender =>
        right
        refine ⟨{ id := now, senderId := sid, senderName := sender.name,
                  senderRole := sender.role, recipientId := pl.recipientId,
                  message := pl.message, timestamp := later }, ?_, rfl⟩
        cases recipientSet pl.recipientId <;> simp [Outcome.ok, chatAccepted]
  | chatRequestHistory sid => left; simp [step, chatRequestHistory, Outcome.ok, chatAccepted]
  | disconnect sid => left; simp [step, disconnect, Outcome.ok, chatAccepted]
  | tick h =>
    left
    simp only [step, tick]
    by_cases hh : h ∈ s.intervals
    · rw [if_pos hh]
      cases hp : s.activePoll with
      | none => simp [Outcome.raised, chatAccepted]
      | some p =>
        simp only []
        by_cases ht : p.timeRemaining > 0
        · rw [if_pos ht]
          simp [Outcome.ok, chatAccepted]
        · rw [if_neg ht, endPoll_of_active now hp]
          simp [Outcome.ok, chatAccepted]
    · rw [if_neg hh]
      simp [Outcome.ok, chatAccepted]

theorem step_chat_length (now : Nat) (ev : Event) (s : State)
    (h : s.chatMessages.length ≤ 100) : (step now ev s).state.chatMessages.length ≤ 100 := by
  rcases step_chat now ev s with ⟨_, h2⟩ | ⟨m, _, h2⟩
  · rw [h2]; exact h
  · rw [h2, push_shift_eq_drop m h, List.length_drop]
    simp
    omega

theorem reachable_chat_length {s : State} (hs : Reachable s) : s.chatMessages.length ≤ 100 :=
  reachable_invariant (fun t => t.chatMessages.length ≤ 100) (by simp [State.init])
    step_chat_length hs

theorem run_chat (evs : List (Nat × Event)) :
    ∀ s : State, s.chatMessages.length ≤ 100 →
      (run s evs).chatMessages
        = (s.chatMessages ++ chatLog s evs).drop
            ((s.chatMessages ++ chatLog s evs).length - 100) := by
  induction evs with
  | nil =>
    intro s hs
    have : s.chatMessages.length - 100 = 0 := by omega
    simp [run, chatLog, this]
  | cons x rest ih =>
    intro s hs
    obtain ⟨now, ev⟩ := x
    have hlen := step_chat_length now ev s hs
    simp only [run, chatLog]
    rw [ih _ hlen]
    rcases step_chat now ev s with ⟨h1, h2⟩ | ⟨m, h1, h2⟩
    · rw [h1, h2]; simp
    · rw [h1, h2, push_shift_eq_drop m hs, drop_append_drop]
      simp

theorem totalVotes_freshResults (options : List String) :
    totalVotes (freshResults options) = 0 := by
  induction options with
  | nil => rfl
  | cons o os ih => simpa [totalVotes, freshResults] using ih

theorem totalVotes_set (rs : List ResultRow) (n : Nat) (h : n < rs.length) :
    totalVotes (rs.set n { text := rs[n].text, votes := rs[n].votes + 1 })
      = totalVotes rs + 1 := by
  induction rs generalizing n with
  | nil => simp at h
  | cons r rest ih =>
    cases n with
    | zero => simp [totalVotes]; omega
    | succ k =>
      have hk : k < rest.length := by simpa using h
      have := ih k hk
      simp only [totalVotes] at this
      simp only [totalVotes, List.set_cons_succ, List.map_cons, List.sum_cons,
        List.getElem_cons_succ]
      omega

/-- The tally sums to the number of voters after a turn whose handler ran to its
end, when it did before and the turn is not a vote with the key "length". -/
theorem votesMatch_step (now : Nat) (ev : Event) (s : State) (hs : VotesMatch s)
    (hev : IndexIsNumber ev) (hok : (step now ev s).fault = false) :
    VotesMatch (step now ev s).state := by
  cases ev with
  | join sid payload =>
    cases payload with
    | none => simpa [step, userJoin, Outcome.raised] using hs
    | some pl => simpa [step, userJoin, Outcome.ok, VotesMatch] using hs
  | createPoll sid payload =>
    cases payload with
    | none => simpa [step, createPoll, Outcome.raised] using hs
    | some pl =>
      simp only [step, createPoll]
      split
      · exact hs
      · cases hopt : pl.options with
        | none => exact hs
        | some options =>
          intro p hp
          simp [Outcome.ok] at hp
          subst hp
          exact totalVotes_freshResults options
  | submitVote sid k =>
    simp only [step] at hok ⊢
    cases hp : s.activePoll with
    | none => simpa [submitVote, hp, Outcome.ok] using hs
    | some p =>
      by_cases hmem : sid ∈ p.votes
      · simpa [submitVote, hp, setHas, hmem, Outcome.ok] using hs
      · cases k with
        | lengthKey => exact absurd rfl (hev sid)
        | int i =>
          by_cases hi : i < 0 ∨ (p.results.length : Int) ≤ i
          · rw [submitVote_of_index_out_of_range now hp hmem hi] at hok
            simp [Outcome.raised] at hok
          · have h0 : 0 ≤ i := by omega
            have hlt : i.toNat < p.results.length := by omega
            rw [submitVote_of_recorded now hp hmem (incrementVotes_int_of_lt h0 hlt)]
            by_cases hq : (p.votes ++ [sid]).length ≥ studentCount s.users
            · rw [if_pos hq]
              intro q hq2
              simp [Outcome.ok, endPoll_activePoll] at hq2
            · rw [if_neg hq]
              intro q hq2
              simp [Outcome.ok] at hq2
              subst hq2
              simp only []
              rw [totalVotes_set p.results i.toNat hlt, hs p hp]
              simp
  | removeStudent sid target =>
    simp only [step, removeStudent]
    split
    · exact hs
    · split
      · simpa [Outcome.ok, VotesMatch] using hs
      · exact hs
  | chatSendMessage sid payload later =>
    cases payload with
    | none => simpa [step, chatSendMessage, Outcome.raised] using hs
    | some pl =>
      simp only [step, chatSendMessage]
      cases findUser s.users sid with
      | none => exact hs
      | some sender => simpa [Outcome.ok, VotesMatch] using hs
  | chatRequestHistory sid => simpa [step, chatRequestHistory, Outcome.ok] using hs
  | disconnect sid => simpa [step, disconnect, Outcome.ok, VotesMatch] using hs
  | tick h =>
    simp only [step, tick]
    split
    · cases hp : s.activePoll with
      | none => simpa [Outcome.raised] using hs
      | some p =>
        simp only []
        split
        · intro q hq
          simp [Outcome.ok] at hq
          subst hq
          exact hs p hp
        · intro q hq
          simp [Outcome.ok, endPoll_activePoll] at hq
    · exact hs

/-- The tally sums to the number of voters along every sequence of turns in which
each handler runs to its end and no vote carries the key "length". -/
theorem votesMatch_run (evs : List (Nat × Event)) :
    ∀ s : State, VotesMatch s →
      (∀ (pre post : List (Nat × Event)) (now : Nat) (ev : Event),
        evs = pre ++ (now, ev) :: post →
        IndexIsNumber ev ∧ (step now ev (run s pre)).fault = false) →
      VotesMatch (run s evs) := by
  induction evs with
  | nil => intro s hs _; exact hs
  | cons x rest ih =>
    intro s hs hall
    obtain ⟨now, ev⟩ := x
    obtain ⟨hnum, hok⟩ := hall [] rest now ev rfl
    refine ih _ (votesMatch_step now ev s hs hnum hok) ?_
    intro pre post now2 ev2 heq
    exact hall ((now, ev) :: pre) post now2 ev2 (by rw [heq]; rfl)

set_option maxRecDepth 100000 in
/-- A session in which 101 chat messages are accepted: a student joins and sends
a message at each clock reading 0 to 100, the clock advancing by one between
the two reads of the handler. The log then holds the messages sent at 1 up to
100, with their ids, and with timestamps 2 up to 101. -/
theorem hundred_and_one_messages_accepted :
    (chatLog State.init
      ((0, Event.join "s1" (some { name := "Ann", role := "student" })) ::
        (List.range 101).map (fun n =>
          (n, Event.chatSendMessage "s1" (some { message := "hi", recipientId := none })
                (n + 1))))
      ).length = 101 ∧
    (run State.init
      ((0, Event.join "s1" (some { name := "Ann", role := "student" })) ::
        (List.range 101).map (fun n =>
          (n, Event.chatSendMessage "s1" (some { message := "hi", recipientId := none })
                (n + 1))))
      ).chatMessages.map (fun m => (m.id, m.timestamp))
        = (List.range' 1 100).map (fun n => (n, n + 1)) := by
  decide

/-- What a turn that closes a poll archives: the poll active when the turn began,
with its question and a tally that has the texts of its tally, in order. -/
theorem step_closed_entry (now : Nat) (ev : Event) (s : State) (e : HistoryEntry)
    (he : e ∈ closedBy now s (step now ev s).emitted) :
    ∃ p : Poll, s.activePoll = some p ∧ e.question = p.question ∧ e.endedAt = now ∧
      e.results.map ResultRow.text = p.results.map ResultRow.text ∧
      (step now ev s).state.activePoll = none ∧
      (step now ev s).state.pollHistory.head? = some e := by
  cases ev with
  | join sid payload =>
    exfalso
    revert he
    cases payload with
    | none => simp [step, userJoin, Outcome.raised, closedBy]
    | some pl =>
      cases hp : s.activePoll <;> by_cases hr : pl.role = "teacher" <;>
        simp [step, userJoin, Outcome.ok, closedBy, hp, hr]
  | createPoll sid payload =>
    exfalso
    revert he
    cases payload with
    | none => simp [step, createPoll, Outcome.raised, closedBy]
    | some pl =>
      simp only [step, createPoll]
      split
      · simp [Outcome.ok, closedBy]
      · cases hopt : pl.options with
        | none => simp [Outcome.raised, closedBy]
        | some options => simp [Outcome.ok, closedBy]
  | submitVote sid k =>
    simp only [step] at he ⊢
    cases hp : s.activePoll with
    | none => exfalso; revert he; simp [submitVote, hp, Outcome.ok, closedBy]
    | some p =>
      by_cases hmem : sid ∈ p.votes
      · exfalso; revert he; simp [submitVote, hp, setHas, hmem, Outcome.ok, closedBy]
      · cases hinc : incrementVotes p.results k with
        | none =>
          exfalso; revert he
          simp [submitVote, hp, setHas_eq_false hmem, setAdd_of_not_mem hmem, hinc,
            Outcome.raised, closedBy]
        | some rs =>
          rw [submitVote_of_recorded now hp hmem hinc] at he ⊢
          by_cases hq : (p.votes ++ [sid]).length ≥ studentCount s.users
          · rw [if_pos hq, endPoll_of_active now rfl] at he ⊢
            have hee : e = { question := p.question, results := rs, endedAt := now } := by
              simpa [Outcome.ok, closedBy, hp] using he
            subst hee
            exact ⟨p, rfl, rfl, rfl, incrementVotes_text hinc, rfl, archive_head _ _⟩
          · exfalso; revert he
            rw [if_neg hq]
            simp [Outcome.ok, closedBy, hp]
  | removeStudent sid target =>
    exfalso
    revert he
    simp only [step, removeStudent]
    split
    · simp [Outcome.ok, closedBy]
    · split <;> simp [Outcome.ok, closedBy]
  | chatSendMessage sid payload later =>
    exfalso
    revert he
    cases payload with
    | none => simp [step, chatSendMessage, Outcome.raised, closedBy]
    | some pl =>
      simp only [step, chatSendMessage]
      cases findUser s.users sid with
      | none => simp [Outcome.ok, closedBy]
      | some sender =>
        cases recipientSet pl.recipientId <;> simp [Outcome.ok, closedBy]
  | chatRequestHistory sid =>
    exfalso; revert he; simp [step, chatRequestHistory, Outcome.ok, closedBy]
  | disconnect sid => exfalso; revert he; simp [step, disconnect, Outcome.ok, closedBy]
  | tick h =>
    simp only [step, tick] at he ⊢
    by_cases hh : h ∈ s.intervals
    · rw [if_pos hh] at he ⊢
      cases hp : s.activePoll with
      | none => exfalso; revert he; simp [hp, Outcome.raised, closedBy]
      | some p =>
        simp only [hp] at he ⊢
        by_cases ht : p.timeRemaining > 0
        · exfalso; revert he
          rw [if_pos ht]
          simp [Outcome.ok, closedBy, hp]
        · rw [if_neg ht, endPoll_of_active now hp] at he ⊢
          have hee : e = { question := p.question, results := p.results, endedAt := now } := by
            simpa [Outcome.ok, closedBy, hp] using he
          subst hee
          exact ⟨p, rfl, rfl, rfl, rfl, rfl, archive_head _ _⟩
    · exfalso; revert he
      rw [if_neg hh]
      simp [Outcome.ok, closedBy]

/-- C11: after any sequence of turns from the initial store, the tally of the
active poll has as many rows as the poll has options and row i carries the text
of option i; one more turn of any kind keeps it so; a poll just created by a
registered teacher has a zero count in every row; and the entry a turn archives
when it closes the active poll has the option texts of that poll, in order. -/
theorem results_aligned_with_options (evs : List (Nat × Event)) :
    (∀ p : Poll, (run State.init evs).activePoll = some p →
      p.results.length = p.options.length ∧
      p.results.map ResultRow.text = p.options ∧
      ∀ i : Nat, (p.results[i]?).map ResultRow.text = p.options[i]?) ∧
    (∀ (now : Nat) (ev : Event), Aligned (step now ev (run State.init evs)).state) ∧
    (∀ (now : Nat) (sid : SocketId) (question : String) (options : List String) (timer : Int),
      registeredRole (run State.init evs).users sid = some "teacher" →
      ∃ p : Poll,
        (createPoll now sid
          (some { question := question, options := some options, timer := timer })
          (run State.init evs)).state.activePoll = some p ∧
        p.options = options ∧ p.results.map ResultRow.text = options ∧
        ∀ r ∈ p.results, r.votes = 0) ∧
    (∀ (now : Nat) (ev : Event) (e : HistoryEntry),
      e ∈ closedBy now (run State.init evs) (step now ev (run State.init evs)).emitted →
      ∃ p : Poll, (run State.init evs).activePoll = some p ∧
        e.results.length = p.options.length ∧
        e.results.map ResultRow.text = p.options ∧
        (step now ev (run State.init evs)).state.pollHistory.head? = some e) := by
  have hreach : Reachable (run State.init evs) := ⟨evs, rfl⟩
  have hal := reachable_aligned hreach
  refine ⟨?_, ?_, ?_, ?_⟩
  · intro p hp
    have h := hal p hp
    refine ⟨by rw [← h, List.length_map], h, ?_⟩
    intro i
    rw [← h, List.getElem?_map]
  · intro now ev
    exact aligned_step now ev _ hal
  · intro now sid question options timer hrole
    refine ⟨_, by simp [createPoll, hrole, Outcome.ok]; rfl, rfl, freshResults_text options, ?_⟩
    intro r hr
    simp [freshResults] at hr
    obtain ⟨a, _, rfl⟩ := hr
    rfl
  · intro now ev e he
    obtain ⟨p, hp, _, _, htext, _, hhead⟩ := step_closed_entry now ev _ e he
    have h := hal p hp
    refine ⟨p, hp, ?_, by rw [htext, h], hhead⟩
    have := congrArg List.length (htext.trans h)
    simpa using this

/-- Witness for C11: the poll of the demo session, and the entry archived when
the vote of the second student closes it. -/
theorem results_aligned_with_options_witness :
    ((run State.init demoEvents).activePoll = some demoPoll ∧
      demoPoll.results.length = demoPoll.options.length ∧
      demoPoll.results.map ResultRow.text = demoPoll.options) ∧
    (({ question := "Q",
        results := [{ text := "A", votes := 1 }, { text := "B", votes := 1 }],
        endedAt := 6 } : HistoryEntry) ∈
        closedBy 6 (run State.init (demoEvents ++ [(5, Event.submitVote "s1" (VotePayload.int 1))]))
          (step 6 (Event.submitVote "s2" (VotePayload.int 0))
            (run State.init
              (demoEvents ++ [(5, Event.submitVote "s1" (VotePayload.int 1))]))).emitted ∧
      ∃ p : Poll,
        (run State.init
          (demoEvents ++ [(5, Event.submitVote "s1" (VotePayload.int 1))])).activePoll = some p ∧
        ([{ text := "A", votes := 1 }, { text := "B", votes := 1 }] : List ResultRow).map
          ResultRow.text = p.options) := by
  refine ⟨⟨by decide, ?_, ?_⟩, by decide, ?_⟩
  · exact ((results_aligned_with_options demoEvents).1 demoPoll (by decide)).1
  · exact ((results_aligned_with_options demoEvents).1 demoPoll (by decide)).2.1
  · obtain ⟨p, hp, _, htext, _⟩ :=
      (results_aligned_with_options
        (demoEvents ++ [(5, Event.submitVote "s1" (VotePayload.int 1))])).2.2.2 6
        (Event.submitVote "s2" (VotePayload.int 0))
        { question := "Q",
          results := [{ text := "A", votes := 1 }, { text := "B", votes := 1 }],
          endedAt := 6 } (by decide)
    exact ⟨p, hp, htext⟩

/-- C12: a create-poll of a registered teacher leaves the history exactly as it
was, in every store (so also with a poll active that has votes) and whatever
the payload; the turn archives nothing and emits neither final results nor a
history list, and when the options are a list its only emission is the
announcement of the new poll, which becomes the active poll. -/
theorem createPoll_keeps_history (now : Nat) (sid : SocketId) (s : State)
    (hrole : registeredRole s.users sid = some "teacher")
    (payload : Option CreatePollPayload) :
    (createPoll now sid payload s).state.pollHistory = s.pollHistory ∧
    closedBy now s (createPoll now sid payload s).emitted = [] ∧
    (∀ (a : Audience) (m : Msg), (a, m) ∈ (createPoll now sid payload s).emitted →
      (∀ rs : List ResultRow, m ≠ Msg.pollEnded rs) ∧
      (∀ h : List HistoryEntry, m ≠ Msg.historyUpdate h)) ∧
    (∀ (question : String) (options : List String) (timer : Int),
      payload = some { question := question, options := some options, timer := timer } →
      (createPoll now sid payload s).emitted
        = [(Audience.all, Msg.newPoll question options timer)] ∧
      ∃ p2 : Poll, (createPoll now sid payload s).state.activePoll = some p2 ∧
        p2.question = question ∧ p2.options = options) := by
  cases payload with
  | none => simp [createPoll, Outcome.raised, closedBy]
  | some pl =>
    cases hopt : pl.options with
    | none =>
      simp only [createPoll, hrole, hopt, Outcome.raised, closedBy]
      refine ⟨by simp, by simp, by simp, ?_⟩
      intro question options timer hpl
      simp only [Option.some.injEq] at hpl
      rw [hpl] at hopt
      simp at hopt
    | some options =>
      refine ⟨by simp [createPoll, hrole, hopt, Outcome.ok],
        by simp [createPoll, hrole, hopt, Outcome.ok, closedBy], ?_, ?_⟩
      · intro a m hm
        simp [createPoll, hrole, hopt, Outcome.ok] at hm
        obtain ⟨_, rfl⟩ := hm
        exact ⟨fun rs => by simp, fun h => by simp⟩
      · intro question options2 timer hpl
        simp only [Option.some.injEq] at hpl
        subst hpl
        simp only [Option.some.injEq] at hopt
        subst hopt
        simp [createPoll, hrole, Outcome.ok]

/-- Witness for C12: the demo poll has one vote when the teacher opens another. -/
theorem createPoll_keeps_history_witness :
    (demoVoted.activePoll = some demoVotedPoll ∧
      registeredRole demoVoted.users "t" = some "teacher") ∧
    (createPoll 9 "t" (some { question := "Q2", options := some ["C", "D"], timer := 30 })
      demoVoted).state.pollHistory = demoVoted.pollHistory ∧
    (createPoll 9 "t" (some { question := "Q2", options := some ["C", "D"], timer := 30 })
      demoVoted).emitted = [(Audience.all, Msg.newPoll "Q2" ["C", "D"] 30)] :=
  ⟨⟨rfl, by decide⟩,
   (createPoll_keeps_history 9 "t" demoVoted (by decide)
      (some { question := "Q2", options := some ["C", "D"], timer := 30 })).1,
   ((createPoll_keeps_history 9 "t" demoVoted (by decide)
      (some { question := "Q2", options := some ["C", "D"], timer := 30 })).2.2.2
        "Q2" ["C", "D"] 30 rfl).1⟩

theorem step_request_authorized (s : State) (r : PollRequest)
    (h : registeredRole s.users r.sid = some "teacher") :
    step r.now (Event.createPoll r.sid
        (some { question := r.question, options := some r.options, timer := r.timer })) s
      = Outcome.ok
          { s with
            activePoll := some r.requested,
            pollTimer := some s.nextInterval,
            intervals := clearInterval s.pollTimer s.intervals ++ [s.nextInterval],
            nextInterval := s.nextInterval + 1 }
          [(Audience.all, Msg.newPoll r.question r.options r.timer)] := by
  simp [step, PollRequest.turn, createPoll, h, freshResults, PollRequest.requested]

theorem step_request_unauthorized (s : State) (r : PollRequest)
    (h : registeredRole s.users r.sid ≠ some "teacher") :
    step r.now (Event.createPoll r.sid
        (some { question := r.question, options := some r.options, timer := r.timer })) s
      = Outcome.ok s [] := by
  simp [step, PollRequest.turn, createPoll, h]

theorem run_requests_users (rs : List PollRequest) :
    ∀ s : State, (run s (rs.map PollRequest.turn)).users = s.users := by
  induction rs with
  | nil => intro s; rfl
  | cons r rest ih =>
    intro s
    simp only [List.map_cons, run]
    rw [ih]
    by_cases h : registeredRole s.users r.sid = some "teacher"
    · rw [step_request_authorized s r h]; rfl
    · rw [step_request_unauthorized s r h]; rfl

theorem run_requests_none_authorized (rs : List PollRequest) :
    ∀ s : State, rs.filter (PollRequest.authorized s.users) = [] →
      run s (rs.map PollRequest.turn) = s := by
  induction rs with
  | nil => intro s _; rfl
  | cons r rest ih =>
    intro s h
    have hr : registeredRole s.users r.sid ≠ some "teacher" := by
      intro hc
      simp [List.filter, PollRequest.authorized, hc] at h
    have hrest : rest.filter (PollRequest.authorized s.users) = [] := by
      simpa [List.filter, PollRequest.authorized, hr] using h
    simp only [List.map_cons, run]
    rw [step_request_unauthorized s r hr]
    exact ih s hrest

theorem run_requests_last_authorized (rs : List PollRequest) :
    ∀ (s : State) (r : PollRequest),
      (rs.filter (PollRequest.authorized s.users)).getLast? = some r →
      (run s (rs.map PollRequest.turn)).activePoll = some r.requested ∧
      ∃ h : Nat, (run s (rs.map PollRequest.turn)).pollTimer = some h ∧
        h ∈ (run s (rs.map PollRequest.turn)).intervals := by
  induction rs with
  | nil => intro s r h; simp at h
  | cons r0 rest ih =>
    intro s r h
    simp only [List.map_cons, run]
    by_cases h0 : registeredRole s.users r0.sid = some "teacher"
    · rw [step_request_authorized s r0 h0]
      simp only [Outcome.ok]
      have hfil : (r0 :: rest).filter (PollRequest.authorized s.users)
          = r0 :: rest.filter (PollRequest.authorized s.users) := by
        simp [List.filter, PollRequest.authorized, h0]
      rw [hfil] at h
      cases hrest : rest.filter (PollRequest.authorized s.users) with
      | nil =>
        rw [hrest] at h
        simp at h
        subst h
        have hrun := run_requests_none_authorized rest
          { s with
            activePoll := some r0.requested,
            pollTimer := some s.nextInterval,
            intervals := clearInterval s.pollTimer s.intervals ++ [s.nextInterval],
            nextInterval := s.nextInterval + 1 } hrest
        rw [hrun]
        exact ⟨rfl, s.nextInterval, rfl, by simp⟩
      | cons b t =>
        rw [hrest, List.getLast?_cons_cons, ← hrest] at h
        exact ih _ r h
    · rw [step_request_unauthorized s r0 h0]
      have hfil : (r0 :: rest).filter (PollRequest.authorized s.users)
          = rest.filter (PollRequest.authorized s.users) := by
        simp [List.filter, PollRequest.authorized, h0]
      rw [hfil] at h
      exact ih s r h

/-- C13: a create-poll of a registered teacher, with a list of options, makes the
requested poll the active poll (that question, those options, time limit and
time remaining equal to the timer, no voters, zero counts), schedules a fresh
interval in place of the running one and emits only the announcement, which
carries question, options and time limit. After any sequence of such requests
the active poll is the one requested by the last request of a registered
teacher, with its timer armed; when no request is of a registered teacher the
store is as before. -/
theorem createPoll_installs_requested_poll (s : State) :
    (∀ r : PollRequest, registeredRole s.users r.sid = some "teacher" →
      createPoll r.now r.sid
          (some { question := r.question, options := some r.options, timer := r.timer }) s
        = Outcome.ok
            { s with
              activePoll := some r.requested,
              pollTimer := some s.nextInterval,
              intervals := clearInterval s.pollTimer s.intervals ++ [s.nextInterval],
              nextInterval := s.nextInterval + 1 }
            [(Audience.all, Msg.newPoll r.question r.options r.timer)]) ∧
    (∀ (rs : List PollRequest) (r : PollRequest),
      (rs.filter (PollRequest.authorized s.users)).getLast? = some r →
      (run s (rs.map PollRequest.turn)).activePoll = some r.requested ∧
      ∃ h : Nat, (run s (rs.map PollRequest.turn)).pollTimer = some h ∧
        h ∈ (run s (rs.map PollRequest.turn)).intervals) ∧
    (∀ rs : List PollRequest, rs.filter (PollRequest.authorized s.users) = [] →
      run s (rs.map PollRequest.turn) = s) :=
  ⟨fun r h => step_request_authorized s r h,
   fun rs r h => run_requests_last_authorized rs s r h,
   fun rs h => run_requests_none_authorized rs s h⟩

/-- Witness for C13: of the four requests of the demo session, the second one of
the teacher is the last of a registered teacher, and its poll is active after
all four. -/
theorem createPoll_installs_requested_poll_witness :
    (demoRequests.filter (PollRequest.authorized demoState.users)).getLast?
      = some demoLastRequest ∧
    (run demoState (demoRequests.map PollRequest.turn)).activePoll
      = some demoLastRequest.requested ∧
    ∃ h : Nat, (run demoState (demoRequests.map PollRequest.turn)).pollTimer = some h ∧
      h ∈ (run demoState (demoRequests.map PollRequest.turn)).intervals :=
  ⟨by decide,
   (createPoll_installs_requested_poll demoState).2.1 demoRequests demoLastRequest (by decide)⟩

theorem archive_eq_cons (e : HistoryEntry) (h : List HistoryEntry) :
    (if (e :: h).length > 50 then (e :: h).dropLast else e :: h)
      = e :: (if h.length ≥ 50 then h.dropLast else h) := by
  cases h with
  | nil => simp
  | cons a t =>
    by_cases hl : (a :: t).length ≥ 50
    · have h1 : (e :: a :: t).length > 50 := by simp at hl ⊢; omega
      rw [if_pos h1, if_pos hl]
      rfl
    · have h1 : ¬ (e :: a :: t).length > 50 := by simp at hl ⊢; omega
      rw [if_neg h1, if_neg hl]

/-- C14: `endPoll` on a store with active poll P puts one entry in front of the
history, with the question of P, the tally of P and the clock reading, the old
history following it without its last entry when it held 50 or more; it sets
the active poll and the timer to null and clears the interval of the timer; it
emits the final results and then the new history, both to all; registry and
chat log are unchanged. -/
theorem endPoll_archives_active_poll (now : Nat) (s : State) (p : Poll)
    (hp : s.activePoll = some p) :
    (endPoll now s).1.pollHistory
      = { question := p.question, results := p.results, endedAt := now } ::
          (if s.pollHistory.length ≥ 50 then s.pollHistory.dropLast else s.pollHistory) ∧
    (endPoll now s).1.activePoll = none ∧
    (endPoll now s).1.pollTimer = none ∧
    (∀ h : Nat, s.pollTimer = some h → h ∉ (endPoll now s).1.intervals) ∧
    (endPoll now s).2
      = [(Audience.all, Msg.pollEnded p.results),
         (Audience.all, Msg.historyUpdate (endPoll now s).1.pollHistory)] ∧
    (endPoll now s).1.users = s.users ∧
    (endPoll now s).1.chatMessages = s.chatMessages := by
  rw [endPoll_of_active now hp]
  refine ⟨archive_eq_cons _ _, rfl, rfl, ?_, rfl, rfl, rfl⟩
  intro h hh
  simp only [hh]
  exact not_mem_clearInterval h s.intervals

/-- Witness for C14: closing the demo poll after the first vote. -/
theorem endPoll_archives_active_poll_witness :
    demoVoted.activePoll = some demoVotedPoll ∧
    (endPoll 8 demoVoted).1.pollHistory
      = [{ question := "Q",
           results := [{ text := "A", votes := 0 }, { text := "B", votes := 1 }],
           endedAt := 8 }] ∧
    (endPoll 8 demoVoted).1.activePoll = none := by
  obtain ⟨h1, h2, _⟩ := endPoll_archives_active_poll 8 demoVoted demoVotedPoll rfl
  exact ⟨rfl, by rw [h1]; decide, h2⟩

/-- C15: `endPoll` on a store without active poll changes nothing and emits
nothing; so a second `endPoll` after a first one, at any clock reading, leaves
the store of the first and emits nothing, and the history keeps the one entry
of the first; and a tick of the interval that was the timer no longer runs the
callback after `endPoll`. -/
theorem endPoll_idempotent (now later : Nat) (s : State) :
    (s.activePoll = none → endPoll now s = (s, [])) ∧
    endPoll later (endPoll now s).1 = ((endPoll now s).1, []) ∧
    (endPoll later (endPoll now s).1).1.pollHistory = (endPoll now s).1.pollHistory ∧
    (∀ (p : Poll) (h : Nat), s.activePoll = some p → s.pollTimer = some h →
      tick later h (endPoll now s).1 = Outcome.ok (endPoll now s).1 []) := by
  have h1 : ∀ (t : State) (n : Nat), t.activePoll = none → endPoll n t = (t, []) := by
    intro t n ht
    simp [endPoll, ht]
  have h2 := h1 (endPoll now s).1 later (endPoll_activePoll now s)
  refine ⟨h1 s now, h2, by rw [h2], ?_⟩
  intro p h hp hh
  have hnot : h ∉ (endPoll now s).1.intervals := by
    rw [endPoll_of_active now hp]
    simp only [hh]
    exact not_mem_clearInterval h s.intervals
  simp [tick, hnot]

/-- Witness for C15: the initial store has no active poll; and after closing the
demo poll a tick of its interval does nothing. -/
theorem endPoll_idempotent_witness :
    (State.init.activePoll = none ∧ endPoll 3 State.init = (State.init, [])) ∧
    (demoVoted.activePoll = some demoVotedPoll ∧ demoVoted.pollTimer = some 0 ∧
      tick 9 0 (endPoll 8 demoVoted).1 = Outcome.ok (endPoll 8 demoVoted).1 []) :=
  ⟨⟨rfl, (endPoll_idempotent 3 4 State.init).1 rfl⟩,
   rfl, rfl, (endPoll_idempotent 8 9 demoVoted).2.2.2 demoVotedPoll 0 rfl rfl⟩

/-- C16: a join with a payload object. With a poll active the emissions are the
registry to all, then, to the joining session only, the announcement with the
stored question, options and time limit, the stored time remaining and the
stored tally, then the history when the role is teacher. With no poll active
none of the three is emitted. The active poll, history, chat log and timer are
unchanged and the handler completes. -/
theorem userJoin_catches_up (sid : SocketId) (pl : JoinPayload) (s : State) :
    (∀ p : Poll, s.activePoll = some p →
      (userJoin sid (some pl) s).emitted
        = (Audience.all, Msg.updateUsers
            (s.users ++ [{ socketId := sid, name := pl.name, role := pl.role }])) ::
          (Audience.only sid, Msg.newPoll p.question p.options p.timeLimit) ::
          (Audience.only sid, Msg.timerUpdate p.timeRemaining) ::
          (Audience.only sid, Msg.updateResults p.results) ::
          (if pl.role = "teacher" then [(Audience.only sid, Msg.historyUpdate s.pollHistory)]
           else [])) ∧
    (s.activePoll = none →
      (userJoin sid (some pl) s).emitted
        = (Audience.all, Msg.updateUsers
            (s.users ++ [{ socketId := sid, name := pl.name, role := pl.role }])) ::
          (if pl.role = "teacher" then [(Audience.only sid, Msg.historyUpdate s.pollHistory)]
           else [])) ∧
    (userJoin sid (some pl) s).state
      = { s with users := s.users ++ [{ socketId := sid, name := pl.name, role := pl.role }] } ∧
    (userJoin sid (some pl) s).state.activePoll = s.activePoll ∧
    (userJoin sid (some pl) s).state.pollHistory = s.pollHistory ∧
    (userJoin sid (some pl) s).state.chatMessages = s.chatMessages ∧
    (userJoin sid (some pl) s).fault = false := by
  refine ⟨?_, ?_, rfl, rfl, rfl, rfl, rfl⟩
  · intro p hp
    simp [userJoin, hp, Outcome.ok]
  · intro hp
    simp [userJoin, hp, Outcome.ok]

/-- Witness for C16: a third student joins the demo session after the first
vote. -/
theorem userJoin_catches_up_witness :
    demoVoted.activePoll = some demoVotedPoll ∧
    (userJoin "s3" (some { name := "Cy", role := "student" }) demoVoted).emitted
      = [(Audience.all, Msg.updateUsers
            (demoVoted.users ++ [{ socketId := "s3", name := "Cy", role := "student" }])),
         (Audience.only "s3", Msg.newPoll "Q" ["A", "B"] 60),
         (Audience.only "s3", Msg.timerUpdate 60),
         (Audience.only "s3",
            Msg.updateResults [{ text := "A", votes := 0 }, { text := "B", votes := 1 }])] := by
  refine ⟨rfl, ?_⟩
  rw [(userJoin_catches_up "s3" { name := "Cy", role := "student" } demoVoted).1
    demoVotedPoll rfl]
  decide

/-- What one turn does to the registry: nothing, or one entry pushed by a join,
or all entries of one socket id filtered out. -/
theorem step_users (now : Nat) (ev : Event) (s : State) :
    (step now ev s).state.users = s.users ∨
    (∃ (sid : SocketId) (pl : JoinPayload), ev = Event.join sid (some pl) ∧
      (step now ev s).state.users
        = s.users ++ [{ socketId := sid, name := pl.name, role := pl.role }]) ∨
    (∃ id : SocketId,
      (step now ev s).state.users = s.users.filter (fun u => decide (u.socketId ≠ id))) := by
  cases ev with
  | join sid payload =>
    cases payload with
    | none => left; rfl
    | some pl => right; left; exact ⟨sid, pl, rfl, rfl⟩
  | createPoll sid payload =>
    left
    cases payload with
    | none => rfl
    | some pl =>
      simp only [step, createPoll]
      split
      · rfl
      · cases pl.options <;> rfl
  | submitVote sid k =>
    left
    simp only [step]
    cases hp : s.activePoll with
    | none => simp [submitVote, hp, Outcome.ok]
    | some p =>
      by_cases hmem : sid ∈ p.votes
      · simp [submitVote, hp, setHas, hmem, Outcome.ok]
      · cases hinc : incrementVotes p.results k with
        | none =>
          simp [submitVote, hp, setHas_eq_false hmem, setAdd_of_not_mem hmem, hinc,
            Outcome.raised]
        | some rs =>
          rw [submitVote_of_recorded now hp hmem hinc]
          by_cases hq : (p.votes ++ [sid]).length ≥ studentCount s.users
          · rw [if_pos hq, endPoll_of_active now rfl]; rfl
          · rw [if_neg hq]; rfl
  | removeStudent sid target =>
    simp only [step, removeStudent]
    split
    · left; rfl
    · split
      · right; right; exact ⟨target, rfl⟩
      · left; rfl
  | chatSendMessage sid payload later =>
    left
    cases payload with
    | none => rfl
    | some pl =>
      simp only [step, chatSendMessage]
      cases findUser s.users sid <;> rfl
  | chatRequestHistory sid => left; rfl
  | disconnect sid => right; right; exact ⟨sid, rfl⟩
  | tick h =>
    left
    simp only [step, tick]
    split
    · cases hp : s.activePoll with
      | none => rfl
      | some p =>
        simp only []
        split
        · rfl
        · rw [endPoll_of_active now hp]; rfl
    · rfl

theorem uniqueIds_step (now : Nat) (ev : Event) (s : State) (hs : UniqueIds s)
    (hev : freshJoin s ev = true) : UniqueIds (step now ev s).state := by
  rcases step_users now ev s with h | ⟨sid, pl, rfl, h⟩ | ⟨id, h⟩
  · unfold UniqueIds; rw [h]; exact hs
  · unfold UniqueIds at hs ⊢
    rw [h, List.map_append, List.nodup_append]
    refine ⟨hs, by simp, ?_⟩
    simp only [freshJoin, List.all_eq_true, decide_eq_true_eq] at hev
    intro a ha hb
    simp at hb
    subst hb
    obtain ⟨u, hu, rfl⟩ := List.mem_map.1 ha
    exact hev u hu rfl
  · unfold UniqueIds at hs ⊢
    rw [h]
    exact hs.sublist ((List.filter_sublist s.users).map User.socketId)

theorem uniqueIds_run (evs : List (Nat × Event)) :
    ∀ s : State, UniqueIds s → freshJoins s evs = true → UniqueIds (run s evs) := by
  induction evs with
  | nil => intro s hs _; exact hs
  | cons x rest ih =>
    intro s hs hf
    obtain ⟨now, ev⟩ := x
    simp only [freshJoins, Bool.and_eq_true] at hf
    exact ih _ (uniqueIds_step now ev s hs hf.1) hf.2

/-- C17, as stated, fails: a session that sends `user:join` twice has two entries
in the registry, the earlier one first; a lookup by its id finds the earlier
role. -/
theorem repeated_join_adds_second_entry :
    (run State.init
      [(1, Event.join "s1" (some { name := "Ann", role := "student" })),
       (2, Event.join "s1" (some { name := "Ann", role := "teacher" }))]).users
      = [{ socketId := "s1", name := "Ann", role := "student" },
         { socketId := "s1", name := "Ann", role := "teacher" }] ∧
    ¬ UniqueIds (run State.init
      [(1, Event.join "s1" (some { name := "Ann", role := "student" })),
       (2, Event.join "s1" (some { name := "Ann", role := "teacher" }))]) ∧
    registeredRole (run State.init
      [(1, Event.join "s1" (some { name := "Ann", role := "student" })),
       (2, Event.join "s1" (some { name := "Ann", role := "teacher" }))]).users "s1"
      = some "student" := by
  refine ⟨by decide, ?_, by decide⟩
  unfold UniqueIds
  decide

/-- C17, amended: after any sequence of turns from the initial store in which
every `user:join` comes from a session without an entry in the registry, no two
entries of the registry have the same socket id. A join never overwrites: it
puts one new entry behind the entries there are. -/
theorem registry_ids_unique_when_joins_fresh (evs : List (Nat × Event))
    (hfresh : freshJoins State.init evs = true) :
    UniqueIds (run State.init evs) ∧
    (∀ (sid : SocketId) (pl : JoinPayload),
      (userJoin sid (some pl) (run State.init evs)).state.users
        = (run State.init evs).users
            ++ [{ socketId := sid, name := pl.name, role := pl.role }]) :=
  ⟨uniqueIds_run evs State.init (by simp [UniqueIds, State.init]) hfresh,
   fun _ _ => rfl⟩

/-- Witness for C17, amended: the demo session, in which each session joins once. -/
theorem registry_ids_unique_when_joins_fresh_witness :
    freshJoins State.init demoEvents = true ∧ UniqueIds (run State.init demoEvents) :=
  ⟨by decide, (registry_ids_unique_when_joins_fresh demoEvents (by decide)).1⟩

theorem findUser_some {users : List User} {id : SocketId} {u : User}
    (h : findUser users id = some u) : u ∈ users ∧ u.socketId = id := by
  unfold findUser at h
  exact ⟨List.mem_of_find?_eq_some h, by simpa using List.find?_some h⟩

theorem registeredRole_some {users : List User} {id : SocketId} {role : String}
    (h : registeredRole users id = some role) :
    ∃ u : User,
      findUser users id = some u ∧ u ∈ users ∧ u.socketId = id ∧ u.role = role := by
  unfold registeredRole at h
  cases hf : findUser users id with
  | none => simp [hf] at h
  | some u =>
    simp [hf] at h
    exact ⟨u, rfl, (findUser_some hf).1, (findUser_some hf).2, h⟩

/-- C18: a remove-student changes the registry exactly when the entry found for
the requester has role teacher and the entry found for the target has role
student. Then all entries of the target, and only those, are filtered out, the
others staying in order; the new registry is emitted to all and the notice of
removal to the target only. Otherwise the store is unchanged and nothing is
emitted. In all cases the active poll, history, chat log and timer are unchanged
and the handler completes. -/
theorem removeStudent_only_teacher_removes_student (sid target : SocketId) (s : State) :
    ((registeredRole s.users sid = some "teacher" ∧
        registeredRole s.users target = some "student") →
      removeStudent sid target s
        = Outcome.ok
            { s with users := s.users.filter (fun u => decide (u.socketId ≠ target)) }
            [(Audience.all,
                Msg.updateUsers (s.users.filter (fun u => decide (u.socketId ≠ target)))),
             (Audience.only target, Msg.youWereRemoved)] ∧
      (∀ u : User, u ∈ (removeStudent sid target s).state.users ↔
        u ∈ s.users ∧ u.socketId ≠ target) ∧
      (removeStudent sid target s).state.users.Sublist s.users) ∧
    (¬ (registeredRole s.users sid = some "teacher" ∧
        registeredRole s.users target = some "student") →
      removeStudent sid target s = Outcome.ok s []) ∧
    ((removeStudent sid target s).state.users ≠ s.users ↔
      (registeredRole s.users sid = some "teacher" ∧
        registeredRole s.users target = some "student")) ∧
    (removeStudent sid target s).state.activePoll = s.activePoll ∧
    (removeStudent sid target s).state.pollHistory = s.pollHistory ∧
    (removeStudent sid target s).state.chatMessages = s.chatMessages ∧
    (removeStudent sid target s).state.pollTimer = s.pollTimer ∧
    (removeStudent sid target s).state.intervals = s.intervals ∧
    (removeStudent sid target s).fault = false := by
  have hyes : (registeredRole s.users sid = some "teacher" ∧
        registeredRole s.users target = some "student") →
      removeStudent sid target s
        = Outcome.ok
            { s with users := s.users.filter (fun u => decide (u.socketId ≠ target)) }
            [(Audience.all,
                Msg.updateUsers (s.users.filter (fun u => decide (u.socketId ≠ target)))),
             (Audience.only target, Msg.youWereRemoved)] := by
    intro h
    simp [removeStudent, h.1, h.2]
  have hno : ¬ (registeredRole s.users sid = some "teacher" ∧
        registeredRole s.users target = some "student") →
      removeStudent sid target s = Outcome.ok s [] := by
    intro h
    by_cases h1 : registeredRole s.users sid = some "teacher"
    · have h2 : registeredRole s.users target ≠ some "student" := fun hc => h ⟨h1, hc⟩
      simp [removeStudent, h1, h2]
    · simp [removeStudent, h1]
  have hchanged : (registeredRole s.users sid = some "teacher" ∧
        registeredRole s.users target = some "student") →
      s.users.filter (fun u => decide (u.socketId ≠ target)) ≠ s.users := by
    intro h hc
    obtain ⟨u, _, hu, hid, _⟩ := registeredRole_some h.2
    rw [← hc] at hu
    have := (List.mem_filter.1 hu).2
    simp [hid] at this
  by_cases h : registeredRole s.users sid = some "teacher" ∧
      registeredRole s.users target = some "student"
  · refine ⟨fun _ => ⟨hyes h, ?_, ?_⟩, fun hn => absurd h hn, ?_, ?_⟩
    · intro u
      rw [hyes h]
      simp [Outcome.ok, List.mem_filter]
    · rw [hyes h]
      exact List.filter_sublist s.users
    · rw [hyes h]
      exact ⟨fun _ => h, fun _ => hchanged h⟩
    · rw [hyes h]
      exact ⟨rfl, rfl, rfl, rfl, rfl, rfl⟩
  · refine ⟨fun hy => absurd hy h, fun _ => hno h, ?_, ?_⟩
    · rw [hno h]
      exact ⟨fun hc => absurd rfl hc, fun hy => absurd hy h⟩
    · rw [hno h]
      exact ⟨rfl, rfl, rfl, rfl, rfl, rfl⟩

/-- Witness for C18: in the demo session the teacher removes the first student,
and the first student tries to remove the second. -/
theorem removeStudent_only_teacher_removes_student_witness :
    ((registeredRole demoState.users "t" = some "teacher" ∧
        registeredRole demoState.users "s1" = some "student") ∧
      (removeStudent "t" "s1" demoState).state.users
        = [{ socketId := "s2", name := "Bob", role := "student" },
           { socketId := "t", name := "Tea", role := "teacher" }]) ∧
    (¬ (registeredRole demoState.users "s1" = some "teacher" ∧
        registeredRole demoState.users "s2" = some "student") ∧
      removeStudent "s1" "s2" demoState = Outcome.ok demoState []) := by
  refine ⟨⟨by decide, ?_⟩, by decide, ?_⟩
  · rw [((removeStudent_only_teacher_removes_student "t" "s1" demoState).1 (by decide)).1]
    decide
  · exact (removeStudent_only_teacher_removes_student "s1" "s2" demoState).2.1 (by decide)

/-- C19: a chat message of a session without an entry in the registry leaves the
whole store unchanged and emits nothing, whatever the payload and the clock. Of
a session with an entry, and with a payload object, one message is pushed onto
the log (and the first message shifted out when that makes 101), carrying the
socket id of the sender, the name and role of the entry found, and the body and
recipient of the payload, with the first clock reading as id and the second as
timestamp; it is emitted to the recipient and then to the sender when the
recipient is a non-empty id, and to all when there is none (or an empty one);
the rest of the store is unchanged and the handler completes. -/
theorem chatSendMessage_needs_registered_sender (now later : Nat) (sid : SocketId)
    (s : State) :
    ((∀ u ∈ s.users, u.socketId ≠ sid) → ∀ payload : Option ChatPayload,
      (chatSendMessage now later sid payload s).state = s ∧
      (chatSendMessage now later sid payload s).emitted = []) ∧
    (∀ (sender : User) (pl : ChatPayload), findUser s.users sid = some sender →
      ∃ m : ChatMessage,
        m = { id := now, senderId := sid, senderName := sender.name,
              senderRole := sender.role, recipientId := pl.recipientId,
              message := pl.message, timestamp := later } ∧
        (chatSendMessage now later sid (some pl) s).state
          = { s with
              chatMessages :=
                if (s.chatMessages ++ [m]).length > 100 then (s.chatMessages ++ [m]).tail
                else s.chatMessages ++ [m] } ∧
        (∀ r : SocketId, pl.recipientId = some r → r ≠ "" →
          (chatSendMessage now later sid (some pl) s).emitted
            = [(Audience.only r, Msg.chatMessage m), (Audience.only sid, Msg.chatMessage m)]) ∧
        ((pl.recipientId = none ∨ pl.recipientId = some "") →
          (chatSendMessage now later sid (some pl) s).emitted
            = [(Audience.all, Msg.chatMessage m)]) ∧
        chatAccepted (chatSendMessage now later sid (some pl) s).emitted = some m ∧
        sender ∈ s.users ∧ sender.socketId = sid ∧
        (chatSendMessage now later sid (some pl) s).fault = false) := by
  refine ⟨?_, ?_⟩
  · intro h payload
    have hnone : findUser s.users sid = none := by
      simp only [findUser, List.find?_eq_none]
      intro u hu
      simpa using h u hu
    cases payload with
    | none => exact ⟨rfl, rfl⟩
    | some pl => simp [chatSendMessage, hnone, Outcome.ok]
  · intro sender pl hf
    refine ⟨_, rfl, by simp [chatSendMessage, hf, Outcome.ok], ?_, ?_, ?_,
      (findUser_some hf).1, (findUser_some hf).2, by simp [chatSendMessage, hf, Outcome.ok]⟩
    · intro r hr hne
      simp [chatSendMessage, hf, Outcome.ok, recipientSet, hr, hne]
    · intro hr
      rcases hr with hr | hr <;> simp [chatSendMessage, hf, Outcome.ok, recipientSet, hr]
    · cases hrs : recipientSet pl.recipientId <;>
        simp [chatSendMessage, hf, Outcome.ok, hrs, chatAccepted]

/-- Witness for C19: in the demo session a session that never joined sends a
message, and the first student sends one to the teacher, the clock reading 7 at
the first read and 8 at the second. -/
theorem chatSendMessage_needs_registered_sender_witness :
    ((∀ u ∈ demoState.users, u.socketId ≠ "x") ∧
      (chatSendMessage 7 8 "x" (some { message := "hi", recipientId := none })
        demoState).state = demoState ∧
      (chatSendMessage 7 8 "x" (some { message := "hi", recipientId := none })
        demoState).emitted = []) ∧
    (findUser demoState.users "s1" = some { socketId := "s1", name := "Ann", role := "student" } ∧
      (chatSendMessage 7 8 "s1" (some { message := "hi", recipientId := some "t" })
        demoState).emitted
        = [(Audience.only "t",
              Msg.chatMessage
                { id := 7, senderId := "s1", senderName := "Ann", senderRole := "student",
                  recipientId := some "t", message := "hi", timestamp := 8 }),
           (Audience.only "s1",
              Msg.chatMessage
                { id := 7, senderId := "s1", senderName := "Ann", senderRole := "student",
                  recipientId := some "t", message := "hi", timestamp := 8 })]) :=
  ⟨⟨by decide,
    (chatSendMessage_needs_registered_sender 7 8 "x" demoState).1 (by decide)
      (some { message := "hi", recipientId := none })⟩,
   by decide,
   by
    obtain ⟨m, hm, _, hto, _⟩ :=
      (chatSendMessage_needs_registered_sender 7 8 "s1" demoState).2
        { socketId := "s1", name := "Ann", role := "student" }
        { message := "hi", recipientId := some "t" } (by decide)
    rw [hto "t" rfl (by decide), hm]⟩

/-- A turn that is no tick, closes no poll and announces no new poll keeps the
active poll, with its question, options, time limit and time remaining, and
keeps the history and the scheduled intervals. -/
theorem keepsPoll_step (now : Nat) (ev : Event) (s : State) (p : Poll)
    (hp : s.activePoll = some p) (hlive : liveTick s ev = false)
    (hk : keepsPoll now ev s = true) :
    ∃ q : Poll, (step now ev s).state.activePoll = some q ∧
      q.timeRemaining = p.timeRemaining ∧ q.timeLimit = p.timeLimit ∧
      q.question = p.question ∧ q.options = p.options ∧
      (step now ev s).state.intervals = s.intervals ∧
      (step now ev s).state.pollHistory = s.pollHistory ∧
      closedBy now s (step now ev s).emitted = [] := by
  cases ev with
  | join sid payload =>
    cases payload with
    | none =>
      exact ⟨p, hp, rfl, rfl, rfl, rfl, rfl, rfl,
        by simp [step, userJoin, Outcome.raised, closedBy]⟩
    | some pl =>
      refine ⟨p, hp, rfl, rfl, rfl, rfl, rfl, rfl, ?_⟩
      by_cases hr : pl.role = "teacher" <;>
        simp [step, userJoin, Outcome.ok, closedBy, hp, hr]
  | createPoll sid payload =>
    cases payload with
    | none =>
      exact ⟨p, hp, rfl, rfl, rfl, rfl, rfl, rfl,
        by simp [step, createPoll, Outcome.raised, closedBy]⟩
    | some pl =>
      by_cases hrole : registeredRole s.users sid = some "teacher"
      · cases hopt : pl.options with
        | none =>
          refine ⟨p, ?_, rfl, rfl, rfl, rfl, ?_, ?_, ?_⟩ <;>
            simp [step, createPoll, hrole, hopt, Outcome.raised, closedBy, hp]
        | some options =>
          exfalso
          simp [keepsPoll, step, createPoll, hrole, hopt, Outcome.ok, announcesPoll] at hk
      · refine ⟨p, ?_, rfl, rfl, rfl, rfl, ?_, ?_, ?_⟩ <;>
          simp [step, createPoll, hrole, Outcome.ok, closedBy, hp]
  | submitVote sid k =>
    simp only [keepsPoll, step] at hk ⊢
    by_cases hmem : sid ∈ p.votes
    · refine ⟨p, ?_, rfl, rfl, rfl, rfl, ?_, ?_, ?_⟩ <;>
        simp [submitVote, hp, setHas, hmem, Outcome.ok, closedBy]
    · cases hinc : incrementVotes p.results k with
      | none =>
        refine ⟨{ p with votes := p.votes ++ [sid] }, ?_, rfl, rfl, rfl, rfl, ?_, ?_, ?_⟩ <;>
          simp [submitVote, hp, setHas_eq_false hmem, setAdd_of_not_mem hmem, hinc,
            Outcome.raised, closedBy]
      | some rs =>
        rw [submitVote_of_recorded now hp hmem hinc] at hk ⊢
        by_cases hq : (p.votes ++ [sid]).length ≥ studentCount s.users
        · exfalso
          rw [if_pos hq, endPoll_of_active now rfl] at hk
          simp [Outcome.ok, closedBy, hp] at hk
        · rw [if_neg hq]
          exact ⟨_, rfl, rfl, rfl, rfl, rfl, rfl, rfl, by simp [Outcome.ok, closedBy, hp]⟩
  | removeStudent sid target =>
    simp only [step, removeStudent]
    split
    · exact ⟨p, hp, rfl, rfl, rfl, rfl, rfl, rfl, by simp [Outcome.ok, closedBy]⟩
    · split
      · exact ⟨p, hp, rfl, rfl, rfl, rfl, rfl, rfl, by simp [Outcome.ok, closedBy]⟩
      · exact ⟨p, hp, rfl, rfl, rfl, rfl, rfl, rfl, by simp [Outcome.ok, closedBy]⟩
  | chatSendMessage sid payload later =>
    cases payload with
    | none =>
      exact ⟨p, hp, rfl, rfl, rfl, rfl, rfl, rfl,
        by simp [step, chatSendMessage, Outcome.raised, closedBy]⟩
    | some pl =>
      simp only [step, chatSendMessage]
      cases findUser s.users sid with
      | none => exact ⟨p, hp, rfl, rfl, rfl, rfl, rfl, rfl, by simp [Outcome.ok, closedBy]⟩
      | some sender =>
        refine ⟨p, hp, rfl, rfl, rfl, rfl, rfl, rfl, ?_⟩
        cases recipientSet pl.recipientId <;> simp [Outcome.ok, closedBy]
  | chatRequestHistory sid =>
    exact ⟨p, hp, rfl, rfl, rfl, rfl, rfl, rfl,
      by simp [step, chatRequestHistory, Outcome.ok, closedBy]⟩
  | disconnect sid =>
    exact ⟨p, hp, rfl, rfl, rfl, rfl, rfl, rfl,
      by simp [step, disconnect, Outcome.ok, closedBy]⟩
  | tick h =>
    have hh : h ∉ s.intervals := by simpa [liveTick] using hlive
    refine ⟨p, ?_, rfl, rfl, rfl, rfl, ?_, ?_, ?_⟩ <;>
      simp [step, tick, hh, Outcome.ok, closedBy, hp]

theorem nearestNumber_of_small {x : Int} (h : x.natAbs ≤ 9007199254740992) :
    nearestNumber x = x := by
  simp [nearestNumber, h]

theorem decrement_of_safe {r : Int} (h0 : 0 < r) (h1 : r ≤ 9007199254740992) :
    decrement r = r - 1 := by
  unfold decrement
  apply nearestNumber_of_small
  have h2 : ((r - 1).natAbs : Int) = r - 1 := Int.natAbs_of_nonneg (by omega)
  omega

theorem tick_of_positive {s : State} {p : Poll} {h : Nat} (now : Nat)
    (hp : s.activePoll = some p) (hh : h ∈ s.intervals) (hr : p.timeRemaining > 0) :
    tick now h s
      = Outcome.ok
          { s with activePoll := some { p with timeRemaining := decrement p.timeRemaining } }
          [(Audience.all, Msg.timerUpdate (decrement p.timeRemaining))] := by
  simp [tick, hh, hp, hr]

theorem tick_of_elapsed {s : State} {p : Poll} {h : Nat} (now : Nat)
    (hp : s.activePoll = some p) (hh : h ∈ s.intervals) (hr : ¬ p.timeRemaining > 0) :
    tick now h s = Outcome.ok (endPoll now s).1 (endPoll now s).2 := by
  simp only [tick, if_pos hh, hp, if_neg hr]

/-- Along a calm sequence with at most T ticks that run, a poll with T seconds
remaining, T at most 2^53, stays active and has lost one second per tick that
ran. -/
theorem run_calm (evs : List (Nat × Event)) :
    ∀ (s : State) (p : Poll) (T : Nat), s.activePoll = some p →
      p.timeRemaining = (T : Int) → T ≤ 9007199254740992 →
      calm s evs = true → liveTicks s evs ≤ T →
      ∃ q : Poll, (run s evs).activePoll = some q ∧
        q.timeRemaining = (T : Int) - (liveTicks s evs : Int) ∧
        q.timeLimit = p.timeLimit ∧ q.question = p.question ∧ q.options = p.options ∧
        (run s evs).intervals = s.intervals ∧
        (run s evs).pollHistory = s.pollHistory ∧
        closedLog s evs = [] := by
  induction evs with
  | nil =>
    intro s p T hp hT _ _ _
    exact ⟨p, hp, by simp [liveTicks, hT], rfl, rfl, rfl, rfl, rfl, rfl⟩
  | cons x rest ih =>
    intro s p T hp hT hsafe hcalm hticks
    obtain ⟨now, ev⟩ := x
    simp only [calm, Bool.and_eq_true] at hcalm
    simp only [liveTicks] at hticks
    simp only [run, liveTicks, closedLog]
    by_cases hlive : liveTick s ev = true
    · rw [if_pos hlive] at hticks ⊢
      cases ev with
      | tick h =>
        have hh : h ∈ s.intervals := by simpa [liveTick] using hlive
        have hpos : p.timeRemaining > 0 := by omega
        have hdec : decrement p.timeRemaining = p.timeRemaining - 1 :=
          decrement_of_safe hpos (by omega)
        have hstep : step now (Event.tick h) s
            = Outcome.ok
                { s with activePoll := some { p with timeRemaining := p.timeRemaining - 1 } }
                [(Audience.all, Msg.timerUpdate (p.timeRemaining - 1))] := by
          simp only [step]
          rw [tick_of_positive now hp hh hpos, hdec]
        rw [hstep] at hcalm hticks ⊢
        obtain ⟨q, hq, hrem, hlim, hquest, hopt, hint, hhist, hlog⟩ :=
          ih _ { p with timeRemaining := p.timeRemaining - 1 } (T - 1) rfl
            (by simp only []; omega) (by omega) hcalm.2
            (by simp only [Outcome.ok] at hticks ⊢; omega)
        refine ⟨q, hq, ?_, hlim, hquest, hopt, hint, hhist, ?_⟩
        · simp only [Outcome.ok] at hrem hticks ⊢
          rw [hrem]
          push_cast
          omega
        · rw [hlog]
          simp [Outcome.ok, closedBy, hp]
      | _ => simp [liveTick] at hlive
    · have hlive2 : liveTick s ev = false := by simpa using hlive
      rw [if_neg hlive] at hticks ⊢
      obtain ⟨q0, hq0, hrem0, hlim0, hquest0, hopt0, hint0, hhist0, hclosed0⟩ :=
        keepsPoll_step now ev s p hp hlive2 hcalm.1
      obtain ⟨q, hq, hrem, hlim, hquest, hopt, hint, hhist, hlog⟩ :=
        ih _ q0 T hq0 (by rw [hrem0, hT]) hsafe hcalm.2 (by omega)
      refine ⟨q, hq, ?_, hlim.trans hlim0, hquest.trans hquest0, hopt.trans hopt0,
        hint.trans hint0, hhist.trans hhist0, ?_⟩
      · rw [hrem]
        push_cast
        omega
      · rw [hclosed0, hlog]
        rfl

theorem tick_of_fixed_point {s : State} {p : Poll} {h : Nat} (now : Nat)
    (hp : s.activePoll = some p) (hh : h ∈ s.intervals) (hr : p.timeRemaining > 0)
    (hfix : decrement p.timeRemaining = p.timeRemaining) :
    (tick now h s).state = s := by
  rw [tick_of_positive now hp hh hr, hfix]
  cases s
  simp only [Outcome.ok] at hp ⊢
  subst hp
  rfl

/-- C20, as stated, fails. The teacher of the demo session opens the poll with
timer 2^53 + 2: the first tick stores and broadcasts 2^53, not 2^53 + 1. With
timer 10^21 a tick stores 10^21 again, so after any number of ticks the poll is
still active with 10^21 seconds remaining and nothing is archived. -/
theorem tick_rounds_beyond_two_pow_53 :
    run State.init
      [(1, Event.join "s1" (some { name := "Ann", role := "student" })),
       (2, Event.join "s2" (some { name := "Bob", role := "student" })),
       (3, Event.join "t" (some { name := "Tea", role := "teacher" })),
       (4, Event.createPoll "t"
            (some { question := "Q", options := some ["A", "B"], timer := 9007199254740994 }))]
      = demoHuge ∧
    tick 5 0 demoHuge
      = Outcome.ok
          { demoHuge with
            activePoll := some { demoHugePoll with timeRemaining := 9007199254740992 } }
          [(Audience.all, Msg.timerUpdate 9007199254740992)] ∧
    demoHugePoll.timeRemaining - 1 = 9007199254740993 ∧
    (tick 5 0 demoEndless).emitted
      = [(Audience.all, Msg.timerUpdate 1000000000000000000000)] ∧
    (∀ n : Nat, run demoEndless (List.replicate n (5, Event.tick 0)) = demoEndless) := by
  refine ⟨by decide, by decide, by decide, by decide, ?_⟩
  intro n
  induction n with
  | zero => rfl
  | succ k ih =>
    have hstep : (step 5 (Event.tick 0) demoEndless).state = demoEndless :=
      tick_of_fixed_point 5 (p := demoEndlessPoll) rfl (by decide) (by decide) (by decide)
    simp only [List.replicate_succ, run, hstep]
    exact ih

/-- C20, amended: a tick that runs with a poll active and time remaining r,
0 < r ≤ 2^53, sets the time remaining to r - 1, emits r - 1 to all and changes
nothing else; with time remaining 0 it closes the poll instead. Hence, for a
poll with T seconds remaining, T a natural number of at most 2^53, along any
sequence of turns of which none replaces the poll or closes it by a vote: while
at most T ticks have run the poll is active with time remaining T less the
number of ticks, between 0 and T, and nothing has been archived; and when
exactly T ticks have run, the next tick closes the poll and archives it. -/
theorem tick_counts_down_then_closes (s : State) (p : Poll) (hp : s.activePoll = some p) :
    (∀ (now h : Nat), h ∈ s.intervals → p.timeRemaining > 0 →
      p.timeRemaining ≤ 9007199254740992 →
      tick now h s
        = Outcome.ok
            { s with activePoll := some { p with timeRemaining := p.timeRemaining - 1 } }
            [(Audience.all, Msg.timerUpdate (p.timeRemaining - 1))]) ∧
    (∀ (now h : Nat), h ∈ s.intervals → p.timeRemaining = 0 →
      (tick now h s).state.activePoll = none ∧
      (tick now h s).state.pollHistory.head?
        = some { question := p.question, results := p.results, endedAt := now } ∧
      (tick now h s).emitted
        = [(Audience.all, Msg.pollEnded p.results),
           (Audience.all, Msg.historyUpdate (tick now h s).state.pollHistory)]) ∧
    (∀ (T : Nat) (evs : List (Nat × Event)), p.timeRemaining = (T : Int) →
      T ≤ 9007199254740992 → calm s evs = true → liveTicks s evs ≤ T →
      ∃ q : Poll, (run s evs).activePoll = some q ∧
        q.timeRemaining = (T : Int) - (liveTicks s evs : Int) ∧
        0 ≤ q.timeRemaining ∧ q.timeRemaining ≤ (T : Int) ∧
        q.question = p.question ∧
        (run s evs).pollHistory = s.pollHistory ∧ closedLog s evs = []) ∧
    (∀ (T : Nat) (evs : List (Nat × Event)) (now h : Nat), p.timeRemaining = (T : Int) →
      T ≤ 9007199254740992 → calm s evs = true → liveTicks s evs = T → h ∈ s.intervals →
      ∃ q : Poll, (run s evs).activePoll = some q ∧ q.timeRemaining = 0 ∧
        (step now (Event.tick h) (run s evs)).state.activePoll = none ∧
        closedBy now (run s evs) (step now (Event.tick h) (run s evs)).emitted
          = [{ question := p.question, results := q.results, endedAt := now }] ∧
        (step now (Event.tick h) (run s evs)).state.pollHistory.head?
          = some { question := p.question, results := q.results, endedAt := now }) := by
  refine ⟨?_, ?_, ?_, ?_⟩
  · intro now h hh hr hsafe
    rw [tick_of_positive now hp hh hr, decrement_of_safe hr hsafe]
  · intro now h hh hr
    rw [tick_of_elapsed now hp hh (by omega), endPoll_of_active now hp]
    exact ⟨rfl, archive_head _ _, rfl⟩
  · intro T evs hT hsafe hcalm hticks
    obtain ⟨q, hq, hrem, _, hquest, _, _, hhist, hlog⟩ :=
      run_calm evs s p T hp hT hsafe hcalm hticks
    exact ⟨q, hq, hrem, by omega, by omega, hquest, hhist, hlog⟩
  · intro T evs now h hT hsafe hcalm hticks hh
    obtain ⟨q, hq, hrem, _, hquest, _, hint, _, _⟩ :=
      run_calm evs s p T hp hT hsafe hcalm (by omega)
    have hzero : q.timeRemaining = 0 := by omega
    have hh2 : h ∈ (run s evs).intervals := by rw [hint]; exact hh
    refine ⟨q, hq, hzero, ?_, ?_, ?_⟩
    · simp only [step]
      rw [tick_of_elapsed now hq hh2 (by omega)]
      exact endPoll_activePoll now _
    · simp only [step]
      rw [tick_of_elapsed now hq hh2 (by omega), endPoll_of_active now hq]
      simp [Outcome.ok, closedBy, hq, hquest]
    · simp only [step]
      rw [tick_of_elapsed now hq hh2 (by omega), endPoll_of_active now hq, ← hquest]
      exact archive_head _ _

/-- Witness for C20, amended: the two-second demo poll. After two ticks and a vote
in between it is active with no time remaining; the third tick closes it. -/
theorem tick_counts_down_then_closes_witness :
    (demoShort.activePoll = some demoShortPoll ∧
      demoShortPoll.timeRemaining = ((2 : Nat) : Int) ∧ 2 ≤ 9007199254740992 ∧
      calm demoShort demoShortTurns = true ∧ liveTicks demoShort demoShortTurns = 2 ∧
      0 ∈ demoShort.intervals) ∧
    (∃ q : Poll, (run demoShort demoShortTurns).activePoll = some q ∧ q.timeRemaining = 0 ∧
      (step 7 (Event.tick 0) (run demoShort demoShortTurns)).state.activePoll = none ∧
      closedBy 7 (run demoShort demoShortTurns)
          (step 7 (Event.tick 0) (run demoShort demoShortTurns)).emitted
        = [{ question := demoShortPoll.question, results := q.results, endedAt := 7 }] ∧
      (step 7 (Event.tick 0) (run demoShort demoShortTurns)).state.pollHistory.head?
        = some { question := demoShortPoll.question, results := q.results, endedAt := 7 }) ∧
    tick 5 0 demoShort
      = Outcome.ok
          { demoShort with
            activePoll := some
              { demoShortPoll with timeRemaining := demoShortPoll.timeRemaining - 1 } }
          [(Audience.all, Msg.timerUpdate (demoShortPoll.timeRemaining - 1))] :=
  ⟨⟨rfl, by decide, by decide, by decide, by decide, by decide⟩,
   (tick_counts_down_then_closes demoShort demoShortPoll rfl).2.2.2 2 demoShortTurns 7 0
     (by decide) (by decide) (by decide) (by decide) (by decide),
   (tick_counts_down_then_closes demoShort demoShortPoll rfl).1 5 0 (by decide) (by decide)
     (by decide)⟩

theorem demoShort_reachable :
    run State.init
      [(1, Event.join "s1" (some { name := "Ann", role := "student" })),
       (2, Event.join "s2" (some { name := "Bob", role := "student" })),
       (3, Event.join "t" (some { name := "Tea", role := "teacher" })),
       (4, Event.createPoll "t"
            (some { question := "Q", options := some ["A", "B"], timer := 2 }))]
      = demoShort := by
  decide

theorem clearInterval_toList (pollTimer : Option Nat) :
    clearInterval pollTimer pollTimer.toList = [] := by
  cases pollTimer with
  | none => rfl
  | some h => simp [clearInterval]

theorem timerMatchesPoll_endPoll (now : Nat) (s : State) (hs : TimerMatchesPoll s) :
    TimerMatchesPoll (endPoll now s).1 := by
  cases hp : s.activePoll with
  | none => simpa [endPoll, hp] using hs
  | some p =>
    rw [endPoll_of_active now hp]
    refine ⟨rfl, ?_⟩
    simp only [hs.2]
    exact clearInterval_toList s.pollTimer

theorem timerMatchesPoll_step (now : Nat) (ev : Event) (s : State) (hs : TimerMatchesPoll s) :
    TimerMatchesPoll (step now ev s).state := by
  cases ev with
  | join sid payload =>
    cases payload with
    | none => exact hs
    | some pl => exact hs
  | createPoll sid payload =>
    cases payload with
    | none => exact hs
    | some pl =>
      simp only [step, createPoll]
      split
      · exact hs
      · cases hopt : pl.options with
        | none => exact hs
        | some options =>
          refine ⟨rfl, ?_⟩
          simp only [Outcome.ok, hs.2, clearInterval_toList]
          rfl
  | submitVote sid k =>
    simp only [step]
    cases hp : s.activePoll with
    | none => simpa [submitVote, hp, Outcome.ok] using hs
    | some p =>
      by_cases hmem : sid ∈ p.votes
      · simpa [submitVote, hp, setHas, hmem, Outcome.ok] using hs
      · have hsome : ∀ q : Poll, TimerMatchesPoll { s with activePoll := some q } := by
          intro q
          refine ⟨?_, hs.2⟩
          have := hs.1
          rw [hp] at this
          simpa using this
        cases hinc : incrementVotes p.results k with
        | none =>
          simpa [submitVote, hp, setHas_eq_false hmem, setAdd_of_not_mem hmem, hinc,
            Outcome.raised] using hsome { p with votes := p.votes ++ [sid] }
        | some rs =>
          rw [submitVote_of_recorded now hp hmem hinc]
          by_cases hq : (p.votes ++ [sid]).length ≥ studentCount s.users
          · rw [if_pos hq]
            exact timerMatchesPoll_endPoll now _ (hsome _)
          · rw [if_neg hq]
            exact hsome _
  | removeStudent sid target =>
    simp only [step, removeStudent]
    split
    · exact hs
    · split
      · exact hs
      · exact hs
  | chatSendMessage sid payload later =>
    cases payload with
    | none => exact hs
    | some pl =>
      simp only [step, chatSendMessage]
      cases findUser s.users sid with
      | none => exact hs
      | some sender => exact hs
  | chatRequestHistory sid => exact hs
  | disconnect sid => exact hs
  | tick h =>
    simp only [step, tick]
    split
    · cases hp : s.activePoll with
      | none => exact hs
      | some p =>
        simp only []
        split
        · refine ⟨?_, hs.2⟩
          have := hs.1
          rw [hp] at this
          simpa using this
        · have := timerMatchesPoll_endPoll now s hs
          rw [endPoll_of_active now hp] at this ⊢
          exact this
    · exact hs

theorem reachable_timerMatchesPoll {s : State} (hs : Reachable s) : TimerMatchesPoll s :=
  reachable_invariant TimerMatchesPoll ⟨rfl, rfl⟩ timerMatchesPoll_step hs

/-- C21: after any sequence of turns from the initial store, `pollTimer` is set
exactly when a poll is active, the scheduled intervals are the one held in
`pollTimer` (so at most one), a scheduled interval finds a poll active, and a
tick of any handle runs to its end without reading a null poll. -/
theorem timer_armed_iff_poll_active (evs : List (Nat × Event)) :
    ((run State.init evs).pollTimer ≠ none ↔ (run State.init evs).activePoll ≠ none) ∧
    (run State.init evs).intervals = (run State.init evs).pollTimer.toList ∧
    (run State.init evs).intervals.length ≤ 1 ∧
    (∀ h : Nat, h ∈ (run State.init evs).intervals →
      (run State.init evs).pollTimer = some h ∧
      ∃ p : Poll, (run State.init evs).activePoll = some p) ∧
    (∀ now h : Nat, (tick now h (run State.init evs)).fault = false) := by
  obtain ⟨h1, h2⟩ := reachable_timerMatchesPoll (s := run State.init evs) ⟨evs, rfl⟩
  have hmem : ∀ h : Nat, h ∈ (run State.init evs).intervals →
      (run State.init evs).pollTimer = some h ∧
      ∃ p : Poll, (run State.init evs).activePoll = some p := by
    intro h hh
    rw [h2] at hh
    cases ht : (run State.init evs).pollTimer with
    | none => simp [ht] at hh
    | some k =>
      simp [ht] at hh
      subst hh
      refine ⟨rfl, ?_⟩
      rw [ht] at h1
      cases hp : (run State.init evs).activePoll with
      | none => simp [hp] at h1
      | some p => exact ⟨p, rfl⟩
  refine ⟨?_, h2, ?_, hmem, ?_⟩
  · cases ht : (run State.init evs).pollTimer <;>
      cases hp : (run State.init evs).activePoll <;> simp [ht, hp] at h1 ⊢
  · rw [h2]
    cases (run State.init evs).pollTimer <;> simp
  · intro now h
    by_cases hh : h ∈ (run State.init evs).intervals
    · obtain ⟨_, p, hp⟩ := hmem h hh
      simp only [tick, if_pos hh, hp]
      split <;> rfl
    · simp [tick, hh, Outcome.ok]

/-- Witness for C21: the interval scheduled in the demo session is the timer, and
the demo poll is active. -/
theorem timer_armed_iff_poll_active_witness :
    0 ∈ (run State.init demoEvents).intervals ∧
    (run State.init demoEvents).pollTimer = some 0 ∧
    ∃ p : Poll, (run State.init demoEvents).activePoll = some p :=
  ⟨by decide, (timer_armed_iff_poll_active demoEvents).2.2.2.1 0 (by decide)⟩

/-- The turns whose handler raises, in a store where a scheduled interval finds a
poll active: an event of `user:join`, `teacher:create-poll` or
`chat:send-message` without payload object; a create-poll of a registered
teacher whose options are not a list; and a vote of a session that has not
voted, with an integer index outside the tally of the active poll. -/
theorem step_fault_iff (now : Nat) (ev : Event) (s : State) (hs : TimerMatchesPoll s) :
    (step now ev s).fault = true ↔
      ((∃ sid : SocketId, ev = Event.join sid none) ∨
       (∃ sid : SocketId, ev = Event.createPoll sid none) ∨
       (∃ (sid : SocketId) (later : Nat), ev = Event.chatSendMessage sid none later) ∨
       (∃ (sid : SocketId) (pl : CreatePollPayload), ev = Event.createPoll sid (some pl) ∧
          registeredRole s.users sid = some "teacher" ∧ pl.options = none) ∨
       (∃ (sid : SocketId) (i : Int) (p : Poll), ev = Event.submitVote sid (VotePayload.int i) ∧
          s.activePoll = some p ∧ sid ∉ p.votes ∧
          (i < 0 ∨ (p.results.length : Int) ≤ i))) := by
  cases ev with
  | join sid payload =>
    cases payload with
    | none => simp [step, userJoin, Outcome.raised]
    | some pl => simp [step, userJoin, Outcome.ok]
  | createPoll sid payload =>
    cases payload with
    | none => simp [step, createPoll, Outcome.raised]
    | some pl =>
      by_cases hrole : registeredRole s.users sid = some "teacher"
      · cases hopt : pl.options with
        | none =>
          simp [step, createPoll, hrole, hopt, Outcome.raised]
          exact ⟨sid, pl, ⟨rfl, rfl⟩, hrole, hopt⟩
        | some options => simp [step, createPoll, hrole, hopt, Outcome.ok]
      · simp [step, createPoll, hrole, Outcome.ok]
  | submitVote sid k =>
    cases hp : s.activePoll with
    | none => simp [step, submitVote, hp, Outcome.ok]
    | some p =>
      by_cases hmem : sid ∈ p.votes
      · simp [step, submitVote, hp, setHas, hmem, Outcome.ok]
        intro x i hx _ hnot
        subst hx
        exact absurd hmem hnot
      · cases k with
        | lengthKey =>
          simp only [step]
          have hinc : incrementVotes p.results VotePayload.lengthKey = some p.results := rfl
          rw [submitVote_of_recorded now hp hmem hinc]
          split <;> simp [Outcome.ok]
        | int i =>
          by_cases hi : i < 0 ∨ (p.results.length : Int) ≤ i
          · simp only [step]
            rw [submitVote_of_index_out_of_range now hp hmem hi]
            simp [Outcome.raised]
            exact ⟨sid, i, ⟨rfl, rfl⟩, hmem, hi⟩
          · have h0 : 0 ≤ i := by omega
            have hlt : i.toNat < p.results.length := by omega
            simp only [step]
            rw [submitVote_of_recorded now hp hmem (incrementVotes_int_of_lt h0 hlt)]
            split <;> simp [Outcome.ok] <;> intro _ <;> omega
  | removeStudent sid target =>
    simp only [step, removeStudent]
    split
    · simp [Outcome.ok]
    · split <;> simp [Outcome.ok]
  | chatSendMessage sid payload later =>
    cases payload with
    | none => simp [step, chatSendMessage, Outcome.raised]
    | some pl =>
      simp only [step, chatSendMessage]
      cases findUser s.users sid <;> simp [Outcome.ok]
  | chatRequestHistory sid => simp [step, chatRequestHistory, Outcome.ok]
  | disconnect sid => simp [step, disconnect, Outcome.ok]
  | tick h =>
    by_cases hh : h ∈ s.intervals
    · have hsome : s.pollTimer.isSome = true := by
        rw [hs.2] at hh
        cases ht : s.pollTimer with
        | none => simp [ht] at hh
        | some k => rfl
      cases hp : s.activePoll with
      | none =>
        have := hs.1
        rw [hsome, hp] at this
        simp at this
      | some p =>
        simp only [step, tick, if_pos hh, hp]
        split <;> simp [Outcome.ok]
    · simp [step, tick, hh, Outcome.ok]

/-- C22, evaluated: in the demo session, which is reachable, four handlers raise.
A vote of a student who has not voted raises for index 5 and for index -1 (the
poll has two options); a create-poll of the teacher raises when its options are
missing or no list; and `user:join`, `teacher:create-poll` and
`chat:send-message` raise when the event carries no payload object. -/
theorem handlers_raise_on_invalid_payloads :
    Reachable demoState ∧
    (submitVote 5 "s1" (VotePayload.int 5) demoState).fault = true ∧
    (submitVote 5 "s1" (VotePayload.int (-1)) demoState).fault = true ∧
    (createPoll 5 "t" (some { question := "Q2", options := none, timer := 10 })
      demoState).fault = true ∧
    (createPoll 5 "t" none demoState).fault = true ∧
    (userJoin "s3" none demoState).fault = true ∧
    (chatSendMessage 5 6 "s1" none demoState).fault = true :=
  ⟨demoState_reachable, by decide, by decide, by decide, by decide, by decide, by decide⟩

/-- The poll-ended broadcasts of a turn announce exactly the close that is due. -/
theorem closedBy_eq_dueClose (now : Nat) (ev : Event) (s : State) :
    closedBy now s (step now ev s).emitted = (dueClose now ev s).toList := by
  cases ev with
  | join sid payload =>
    cases payload with
    | none =>
      cases hp : s.activePoll <;>
        simp [step, userJoin, Outcome.raised, closedBy, dueClose, hp]
    | some pl =>
      cases hp : s.activePoll <;> by_cases hr : pl.role = "teacher" <;>
        simp [step, userJoin, Outcome.ok, closedBy, dueClose, hp, hr]
  | createPoll sid payload =>
    have hdue : dueClose now (Event.createPoll sid payload) s = none := by
      cases hp : s.activePoll <;> simp [dueClose, hp]
    rw [hdue]
    cases payload with
    | none => simp [step, createPoll, Outcome.raised, closedBy]
    | some pl =>
      simp only [step, createPoll]
      split
      · simp [Outcome.ok, closedBy]
      · cases hopt : pl.options with
        | none => simp [Outcome.raised, closedBy]
        | some options => simp [Outcome.ok, closedBy]
  | submitVote sid k =>
    simp only [step]
    cases hp : s.activePoll with
    | none => simp [submitVote, hp, Outcome.ok, closedBy, dueClose]
    | some p =>
      by_cases hmem : sid ∈ p.votes
      · simp [submitVote, hp, setHas, hmem, Outcome.ok, closedBy, dueClose]
      · cases hinc : incrementVotes p.results k with
        | none =>
          simp [submitVote, hp, setHas_eq_false hmem, setAdd_of_not_mem hmem, hinc,
            Outcome.raised, closedBy, dueClose, hmem]
        | some rs =>
          rw [submitVote_of_recorded now hp hmem hinc]
          by_cases hq : (p.votes ++ [sid]).length ≥ studentCount s.users
          · have hq2 : studentCount s.users ≤ p.votes.length + 1 := by simpa using hq
            rw [if_pos hq, endPoll_of_active now rfl]
            simp [Outcome.ok, closedBy, dueClose, hp, hmem, hinc, hq2]
          · have hq2 : ¬ studentCount s.users ≤ p.votes.length + 1 := by simpa using hq
            rw [if_neg hq]
            simp [Outcome.ok, closedBy, dueClose, hp, hmem, hinc, hq2]
  | removeStudent sid target =>
    have hdue : dueClose now (Event.removeStudent sid target) s = none := by
      cases hp : s.activePoll <;> simp [dueClose, hp]
    rw [hdue]
    simp only [step, removeStudent]
    split
    · simp [Outcome.ok, closedBy]
    · split <;> simp [Outcome.ok, closedBy]
  | chatSendMessage sid payload later =>
    have hdue : dueClose now (Event.chatSendMessage sid payload later) s = none := by
      cases hp : s.activePoll <;> simp [dueClose, hp]
    rw [hdue]
    cases payload with
    | none => simp [step, chatSendMessage, Outcome.raised, closedBy]
    | some pl =>
      simp only [step, chatSendMessage]
      cases findUser s.users sid with
      | none => simp [Outcome.ok, closedBy]
      | some sender =>
        cases recipientSet pl.recipientId <;> simp [Outcome.ok, closedBy]
  | chatRequestHistory sid =>
    cases hp : s.activePoll <;> simp [step, chatRequestHistory, Outcome.ok, closedBy, dueClose, hp]
  | disconnect sid =>
    cases hp : s.activePoll <;> simp [step, disconnect, Outcome.ok, closedBy, dueClose, hp]
  | tick h =>
    simp only [step, tick]
    by_cases hh : h ∈ s.intervals
    · rw [if_pos hh]
      cases hp : s.activePoll with
      | none => simp [Outcome.raised, closedBy, dueClose, hp]
      | some p =>
        simp only []
        by_cases ht : p.timeRemaining > 0
        · rw [if_pos ht]
          simp [Outcome.ok, closedBy, dueClose, hp, hh, ht]
        · rw [if_neg ht, endPoll_of_active now hp]
          simp only [Outcome.ok, closedBy, dueClose, hp]
          simp [hh, ht]
    · rw [if_neg hh]
      cases hp : s.activePoll <;> simp [Outcome.ok, closedBy, dueClose, hp, hh]

theorem closedLog_eq_dueCloses (evs : List (Nat × Event)) :
    ∀ s : State, closedLog s evs = dueCloses s evs := by
  induction evs with
  | nil => intro s; rfl
  | cons x rest ih =>
    intro s
    obtain ⟨now, ev⟩ := x
    simp only [closedLog, dueCloses, closedBy_eq_dueClose, ih]

/-- The chat message a turn delivers is exactly the one that is due. -/
theorem chatAccepted_eq_dueMessage (now : Nat) (ev : Event) (s : State) :
    chatAccepted (step now ev s).emitted = dueMessage now ev s := by
  cases ev with
  | join sid payload =>
    cases payload with
    | none => simp [step, userJoin, Outcome.raised, chatAccepted, dueMessage]
    | some pl =>
      cases hp : s.activePoll <;> by_cases hr : pl.role = "teacher" <;>
        simp [step, userJoin, Outcome.ok, chatAccepted, dueMessage, hp, hr]
  | createPoll sid payload =>
    cases payload with
    | none => simp [step, createPoll, Outcome.raised, chatAccepted, dueMessage]
    | some pl =>
      simp only [step, createPoll]
      split
      · simp [Outcome.ok, chatAccepted, dueMessage]
      · cases hopt : pl.options with
        | none => simp [Outcome.raised, chatAccepted, dueMessage]
        | some options => simp [Outcome.ok, chatAccepted, dueMessage]
  | submitVote sid k =>
    simp only [step]
    cases hp : s.activePoll with
    | none => simp [submitVote, hp, Outcome.ok, chatAccepted, dueMessage]
    | some p =>
      by_cases hmem : sid ∈ p.votes
      · simp [submitVote, hp, setHas, hmem, Outcome.ok, chatAccepted, dueMessage]
      · cases hinc : incrementVotes p.results k with
        | none =>
          simp [submitVote, hp, setHas_eq_false hmem, setAdd_of_not_mem hmem, hinc,
            Outcome.raised, chatAccepted, dueMessage]
        | some rs =>
          rw [submitVote_of_recorded now hp hmem hinc]
          by_cases hq : (p.votes ++ [sid]).length ≥ studentCount s.users
          · rw [if_pos hq, endPoll_of_active now rfl]
            simp [Outcome.ok, chatAccepted, dueMessage]
          · rw [if_neg hq]
            simp [Outcome.ok, chatAccepted, dueMessage]
  | removeStudent sid target =>
    simp only [step, removeStudent]
    split
    · simp [Outcome.ok, chatAccepted, dueMessage]
    · split <;> simp [Outcome.ok, chatAccepted, dueMessage]
  | chatSendMessage sid payload later =>
    cases payload with
    | none => simp [step, chatSendMessage, Outcome.raised, chatAccepted, dueMessage]
    | some pl =>
      simp only [step, chatSendMessage]
      cases hf : findUser s.users sid with
      | none => simp [Outcome.ok, chatAccepted, dueMessage, hf]
      | some sender =>
        cases recipientSet pl.recipientId <;> simp [Outcome.ok, chatAccepted, dueMessage, hf]
  | chatRequestHistory sid =>
    simp [step, chatRequestHistory, Outcome.ok, chatAccepted, dueMessage]
  | disconnect sid => simp [step, disconnect, Outcome.ok, chatAccepted, dueMessage]
  | tick h =>
    simp only [step, tick]
    by_cases hh : h ∈ s.intervals
    · rw [if_pos hh]
      cases hp : s.activePoll with
      | none => simp [Outcome.raised, chatAccepted, dueMessage]
      | some p =>
        simp only []
        by_cases ht : p.timeRemaining > 0
        · rw [if_pos ht]
          simp [Outcome.ok, chatAccepted, dueMessage]
        · rw [if_neg ht, endPoll_of_active now hp]
          simp [Outcome.ok, chatAccepted, dueMessage]
    · rw [if_neg hh]
      simp [Outcome.ok, chatAccepted, dueMessage]

theorem chatLog_eq_dueMessages (evs : List (Nat × Event)) :
    ∀ s : State, chatLog s evs = dueMessages s evs := by
  induction evs with
  | nil => intro s; rfl
  | cons x rest ih =>
    intro s
    obtain ⟨now, ev⟩ := x
    simp only [chatLog, dueMessages, chatAccepted_eq_dueMessage, ih]

/-- C9: after any sequence of turns from the initial store, the history has at
most 50 entries and is the list of the entries due so far, newest first, cut to
its first 50, where an entry is due at each turn that the rules of closing make
close the active poll (a tick with no time remaining, a vote that completes the
quorum); its length is the smaller of 50 and the number of polls closed, so
exactly 50 once more than 50 were closed. A further turn with no close due
leaves the history alone; a turn with a close due puts the due entry in front
of the first 49 entries of the old history. The closes due are exactly those
announced by a poll-ended broadcast. -/
theorem history_is_newest_fifty_closed (evs : List (Nat × Event)) :
    (run State.init evs).pollHistory.length ≤ 50 ∧
    (run State.init evs).pollHistory = (dueCloses State.init evs).reverse.take 50 ∧
    (run State.init evs).pollHistory.length = min 50 (dueCloses State.init evs).length ∧
    (50 < (dueCloses State.init evs).length → (run State.init evs).pollHistory.length = 50) ∧
    (∀ (now : Nat) (ev : Event),
      (dueClose now ev (run State.init evs) = none ∧
        (step now ev (run State.init evs)).state.pollHistory
          = (run State.init evs).pollHistory) ∨
      (∃ e : HistoryEntry,
        dueClose now ev (run State.init evs) = some e ∧
        (step now ev (run State.init evs)).state.pollHistory
          = e :: (run State.init evs).pollHistory.take 49)) ∧
    closedLog State.init evs = dueCloses State.init evs ∧
    (run State.init evs).pollHistory = (closedLog State.init evs).reverse.take 50 ∧
    (run State.init evs).pollHistory.length = min 50 (closedLog State.init evs).length ∧
    (∀ (now : Nat) (ev : Event),
      (closedBy now (run State.init evs) (step now ev (run State.init evs)).emitted = [] ∧
        (step now ev (run State.init evs)).state.pollHistory
          = (run State.init evs).pollHistory) ∨
      (∃ e : HistoryEntry,
        closedBy now (run State.init evs) (step now ev (run State.init evs)).emitted = [e] ∧
        (step now ev (run State.init evs)).state.pollHistory
          = e :: (run State.init evs).pollHistory.take 49)) := by
  have hlen : (run State.init evs).pollHistory.length ≤ 50 :=
    reachable_history_length ⟨evs, rfl⟩
  have hlog := closedLog_eq_dueCloses evs State.init
  have heq : (run State.init evs).pollHistory = (closedLog State.init evs).reverse.take 50 := by
    have := run_history evs State.init (by simp [State.init])
    simpa [State.init] using this
  have hmin : (run State.init evs).pollHistory.length
      = min 50 (closedLog State.init evs).length := by
    rw [heq, List.length_take, List.length_reverse]
  have hstep : ∀ (now : Nat) (ev : Event),
      (closedBy now (run State.init evs) (step now ev (run State.init evs)).emitted = [] ∧
        (step now ev (run State.init evs)).state.pollHistory
          = (run State.init evs).pollHistory) ∨
      (∃ e : HistoryEntry,
        closedBy now (run State.init evs) (step now ev (run State.init evs)).emitted = [e] ∧
        (step now ev (run State.init evs)).state.pollHistory
          = e :: (run State.init evs).pollHistory.take 49) := by
    intro now ev
    rcases step_history now ev (run State.init evs) with h | ⟨e, h1, h2⟩
    · exact Or.inl h
    · refine Or.inr ⟨e, h1, ?_⟩
      rw [h2, archive_eq_take e hlen, List.take_succ_cons]
  refine ⟨hlen, by rw [← hlog]; exact heq, by rw [← hlog]; exact hmin, ?_, ?_, hlog, heq,
    hmin, hstep⟩
  · intro hmany
    rw [hmin, hlog]
    omega
  · intro now ev
    rcases hstep now ev with ⟨h1, h2⟩ | ⟨e, h1, h2⟩
    · rw [closedBy_eq_dueClose] at h1
      refine Or.inl ⟨?_, h2⟩
      cases hd : dueClose now ev (run State.init evs) with
      | none => rfl
      | some e => simp [hd] at h1
    · rw [closedBy_eq_dueClose] at h1
      refine Or.inr ⟨e, ?_, h2⟩
      cases hd : dueClose now ev (run State.init evs) with
      | none => simp [hd] at h1
      | some e2 =>
        simp [hd] at h1
        rw [h1]

set_option maxRecDepth 100000 in
/-- Witness for C9: the session of 51 polls, each closed by the vote of the only
student at clock readings 0 to 50. 51 closes are due, and the history holds the
50 polls closed at 50 down to 1. -/
theorem history_is_newest_fifty_closed_witness :
    50 < (dueCloses State.init demoFiftyOnePolls).length ∧
    (run State.init demoFiftyOnePolls).pollHistory.length = 50 ∧
    (run State.init demoFiftyOnePolls).pollHistory.map HistoryEntry.endedAt
      = (List.range' 1 50).reverse :=
  ⟨by decide, (history_is_newest_fifty_closed demoFiftyOnePolls).2.2.2.1 (by decide),
   by decide⟩

/-- C10: after any sequence of turns from the initial store, the chat log has at
most 100 messages and is the list of the messages due so far, oldest first,
without all but its last 100, where a message is due at each chat event with a
payload object of a session found in the registry; its length is the smaller of
100 and the number of messages accepted, so exactly 100 once more than 100 were
accepted. A further turn with no message due leaves the log alone; a turn with
a message due puts it behind the old log, without its first message when the
old log held 100. The messages due are exactly those delivered. -/
theorem chat_log_is_last_hundred_accepted (evs : List (Nat × Event)) :
    (run State.init evs).chatMessages.length ≤ 100 ∧
    (run State.init evs).chatMessages
      = (dueMessages State.init evs).drop ((dueMessages State.init evs).length - 100) ∧
    (run State.init evs).chatMessages.length = min 100 (dueMessages State.init evs).length ∧
    (100 < (dueMessages State.init evs).length →
      (run State.init evs).chatMessages.length = 100) ∧
    (∀ (now : Nat) (ev : Event),
      (dueMessage now ev (run State.init evs) = none ∧
        (step now ev (run State.init evs)).state.chatMessages
          = (run State.init evs).chatMessages) ∨
      (∃ m : ChatMessage,
        dueMessage now ev (run State.init evs) = some m ∧
        (step now ev (run State.init evs)).state.chatMessages
          = (run State.init evs).chatMessages.drop
              ((run State.init evs).chatMessages.length - 99) ++ [m])) ∧
    chatLog State.init evs = dueMessages State.init evs ∧
    (run State.init evs).chatMessages
      = (chatLog State.init evs).drop ((chatLog State.init evs).length - 100) ∧
    (run State.init evs).chatMessages.length = min 100 (chatLog State.init evs).length ∧
    (∀ (now : Nat) (ev : Event),
      (chatAccepted (step now ev (run State.init evs)).emitted = none ∧
        (step now ev (run State.init evs)).state.chatMessages
          = (run State.init evs).chatMessages) ∨
      (∃ m : ChatMessage,
        chatAccepted (step now ev (run State.init evs)).emitted = some m ∧
        (step now ev (run State.init evs)).state.chatMessages
          = (run State.init evs).chatMessages.drop
              ((run State.init evs).chatMessages.length - 99) ++ [m])) := by
  have hlen : (run State.init evs).chatMessages.length ≤ 100 :=
    reachable_chat_length ⟨evs, rfl⟩
  have hlog := chatLog_eq_dueMessages evs State.init
  have heq : (run State.init evs).chatMessages
      = (chatLog State.init evs).drop ((chatLog State.init evs).length - 100) := by
    have := run_chat evs State.init (by simp [State.init])
    simpa [State.init] using this
  have hmin : (run State.init evs).chatMessages.length
      = min 100 (chatLog State.init evs).length := by
    rw [heq, List.length_drop]
    omega
  have hstep : ∀ (now : Nat) (ev : Event),
      (chatAccepted (step now ev (run State.init evs)).emitted = none ∧
        (step now ev (run State.init evs)).state.chatMessages
          = (run State.init evs).chatMessages) ∨
      (∃ m : ChatMessage,
        chatAccepted (step now ev (run State.init evs)).emitted = some m ∧
        (step now ev (run State.init evs)).state.chatMessages
          = (run State.init evs).chatMessages.drop
              ((run State.init evs).chatMessages.length - 99) ++ [m]) := by
    intro now ev
    rcases step_chat now ev (run State.init evs) with h | ⟨m, h1, h2⟩
    · exact Or.inl h
    · exact Or.inr ⟨m, h1, by rw [h2, push_shift_eq_append m hlen]⟩
  refine ⟨hlen, by rw [← hlog]; exact heq, by rw [← hlog]; exact hmin, ?_, ?_, hlog, heq,
    hmin, hstep⟩
  · intro hmany
    rw [hmin, hlog]
    omega
  · intro now ev
    have h := hstep now ev
    rw [chatAccepted_eq_dueMessage] at h
    exact h

set_option maxRecDepth 100000 in
/-- Witness for C10: the session of 101 chat messages sent at clock readings 0 to
100. 101 messages are due, and the log holds the 100 sent at 1 up to 100. -/
theorem chat_log_is_last_hundred_accepted_witness :
    100 < (dueMessages State.init demoHundredOneMessages).length ∧
    (run State.init demoHundredOneMessages).chatMessages.length = 100 ∧
    (run State.init demoHundredOneMessages).chatMessages.map ChatMessage.id
      = List.range' 1 100 :=
  ⟨by decide, (chat_log_is_last_hundred_accepted demoHundredOneMessages).2.2.2.1 (by decide),
   by decide⟩

end LivePoll
